import Mathlib

/-!
Verification development for the `query` package: a PEG parser for a small
SQL-like language (grammar.peg.go, expression.go) and a scan/filter/limit
executor (executor.go).

The parser embedding mirrors the generated PEG matcher rule by rule: each Go
rule function (documented in the source by its PEG production comment, e.g.
`Query <- (_ ColumnExpr? _ WhereExpr? _ GroupExpr? _ OrderByExpr? _ LimitExpr? _ !.)`)
becomes one Lean definition built from combinators that reproduce the
generated code's ordered choice, backtracking, token recording and text
captures.  Tokens are recorded in the order the generated `add` calls survive
backtracking (which equals the token-index order that `parser.Execute` walks).

The repository's filter evaluation (`buildFilters` and the per-row `Filter`
method) is not present under src/ (only its caller in executor.go is); it is
modelled from the spec where marked below.
-/

namespace QueryPkg

/-! ## Runes and the parse buffer

Go stores the input as `[]rune` with a sentinel `endSymbol` rune appended
(`parser.Init`).  Runes are modelled as `Nat` code points, since `endSymbol =
1114112 = 0x110000` is not a valid Unicode scalar.  The generated matcher only
reads `buffer[position]`; positions never run past the sentinel, so reading
out of range (which would panic in Go) is modelled as reading the sentinel,
which no alternative matches. -/

def endSymbol : Nat := 1114112

abbrev Buf := List Nat

def mkBuf (s : String) : Buf := s.data.map Char.toNat ++ [endSymbol]

def getRune (buf : Buf) (pos : Nat) : Nat := buf.getD pos endSymbol

/-! ## Tokens

`token32` carries a rule tag and a begin/end span.  `parser.Execute` only
inspects `rulePegText` tokens (setting the current captured text) and
`ruleActionN` tokens (running a builder action), so those two kinds are
distinguished; every other rule token is recorded with its numeric rule tag
(the constant from the generated `pegRule` enumeration) and is skipped by the
execution walk. -/

inductive Tok where
  | peg (rule : Nat) (b e : Nat)
  | text (b e : Nat)
  | act (n : Nat)
deriving Repr, DecidableEq

/-- Result of one rule matcher: `none` on failure (position restored by the
caller, recorded tokens discarded), `some (pos, toks)` on success with the new
position and the tokens added, in add order. -/
abbrev PRes := Option (Nat × List Tok)

/-! ## Combinators mirroring the generated matcher code -/

/-- Match one specific rune (`if buffer[position] != rune(c) ... position++`). -/
def pchar (buf : Buf) (c : Nat) (pos : Nat) : PRes :=
  if getRune buf pos = c then some (pos + 1, []) else none

/-- Match a rune range (`if c := buffer[position]; c < lo || c > hi ...`). -/
def prange (buf : Buf) (lo hi : Nat) (pos : Nat) : PRes :=
  if lo ≤ getRune buf pos ∧ getRune buf pos ≤ hi then some (pos + 1, []) else none

/-- `matchDot`: any rune except the sentinel. -/
def pdot (buf : Buf) (pos : Nat) : PRes :=
  if getRune buf pos = endSymbol then none else some (pos + 1, [])

/-- Sequencing: run `a`, then `b` from where `a` stopped; fail if either
fails (the caller restores position and token index, i.e. discards tokens). -/
def pseq (a b : Nat → PRes) (pos : Nat) : PRes :=
  match a pos with
  | none => none
  | some (p1, t1) =>
    match b p1 with
    | none => none
    | some (p2, t2) => some (p2, t1 ++ t2)

/-- Ordered choice with backtracking: try `a`; on failure restore position
and tokens and try `b`. -/
def palt (a b : Nat → PRes) (pos : Nat) : PRes :=
  match a pos with
  | some r => some r
  | none => b pos

/-- Optional (`X?`): failure of `X` restores and succeeds consuming nothing. -/
def popt (a : Nat → PRes) (pos : Nat) : PRes :=
  match a pos with
  | some r => some r
  | none => some (pos, [])

/-- Negative lookahead (`!X`): succeed without consuming iff `X` fails. -/
def pnot (a : Nat → PRes) (pos : Nat) : PRes :=
  match a pos with
  | some _ => none
  | none => some (pos, [])

/-- Rule wrapper: on success `add(ruleR, begin)` records a token spanning the
match, after all tokens added by the rule body. -/
def ptag (r : Nat) (a : Nat → PRes) (pos : Nat) : PRes :=
  match a pos with
  | none => none
  | some (p, t) => some (p, t ++ [Tok.peg r pos p])

/-- Text capture (`<X>`): `add(rulePegText, begin)` after the inner match. -/
def pcap (a : Nat → PRes) (pos : Nat) : PRes :=
  match a pos with
  | none => none
  | some (p, t) => some (p, t ++ [Tok.text pos p])

/-- Semantic-action rule (`ruleActionN`): records a token, never fails,
consumes nothing. -/
def pact (n : Nat) (pos : Nat) : PRes :=
  some (pos, [Tok.act n])

/-- Kleene star iteration with an explicit iteration budget.  The generated
code loops until the alternative fails; every starred alternative in this
grammar consumes at least one rune on success and positions never pass the
sentinel, so the budget `buf.length + 1 - pos` used by `pstar` is never
exhausted before the alternative fails.  An iteration that would not advance
stops the loop (the generated code would spin forever; no starred alternative
of this grammar can match without advancing). -/
def pstarF : Nat → (Nat → PRes) → Nat → Nat × List Tok
  | 0, _, pos => (pos, [])
  | fuel + 1, a, pos =>
    match a pos with
    | none => (pos, [])
    | some (p', t) =>
      if pos < p' then
        let r := pstarF fuel a p'
        (r.1, t ++ r.2)
      else (pos, [])

/-- `X*` as used by the generated rule bodies. -/
def pstar (buf : Buf) (a : Nat → PRes) (pos : Nat) : PRes :=
  let r := pstarF (buf.length + 1 - pos) a pos
  some (r.1, r.2)

/-- `X+`: one match then `X*`. -/
def pplus (buf : Buf) (a : Nat → PRes) (pos : Nat) : PRes :=
  pseq a (pstar buf a) pos

/-- A literal rune sequence, one `pchar` per rune (the generated code matches
each rune of a case-sensitive literal in turn). -/
def pstr (buf : Buf) : List Char → Nat → PRes
  | [], pos => some (pos, [])
  | c :: rest, pos => pseq (pchar buf c.toNat) (pstr buf rest) pos

/-- One rune of a case-insensitive keyword: the generated code writes
`('s' / 'S')` for letters and a plain literal for the space in two-word
keywords. -/
def pcharCI (buf : Buf) (c : Char) : Nat → PRes :=
  if c.isLower then palt (pchar buf c.toNat) (pchar buf (c.toNat - 32))
  else pchar buf c.toNat

/-- A case-insensitive keyword literal, e.g. `('s'/'S') ('e'/'E') ...`. -/
def pstrCI (buf : Buf) : List Char → Nat → PRes
  | [], pos => some (pos, [])
  | c :: rest, pos => pseq (pcharCI buf c) (pstrCI buf rest) pos

/-! ## Grammar rules

One definition per generated rule function, in dependency order, each
transcribed from the PEG production comment in grammar.peg.go.  The numeric
tags are the `pegRule` constants (Query = 1 ... COMMA = 35). -/

/-- Rule 23 in the generated file: `HexDigit <- ([a-f] / [A-F] / [0-9])`. -/
def runHexDigit (buf : Buf) : Nat → PRes :=
  ptag 24 (palt (prange buf 'a'.toNat 'f'.toNat)
    (palt (prange buf 'A'.toNat 'F'.toNat) (prange buf '0'.toNat '9'.toNat)))

/-- `HexQuad <- (HexDigit HexDigit HexDigit HexDigit)`. -/
def runHexQuad (buf : Buf) : Nat → PRes :=
  ptag 23 (pseq (runHexDigit buf) (pseq (runHexDigit buf)
    (pseq (runHexDigit buf) (runHexDigit buf))))

/-- `UniversalCharacter <- (('\\' 'u' HexQuad) / ('\\' 'U' HexQuad HexQuad))`. -/
def runUniversalCharacter (buf : Buf) : Nat → PRes :=
  ptag 22 (palt
    (pseq (pchar buf '\\'.toNat) (pseq (pchar buf 'u'.toNat) (runHexQuad buf)))
    (pseq (pchar buf '\\'.toNat) (pseq (pchar buf 'U'.toNat)
      (pseq (runHexQuad buf) (runHexQuad buf)))))

/-- `HexEscape <- ('\\' 'x' HexDigit+)`. -/
def runHexEscape (buf : Buf) : Nat → PRes :=
  ptag 21 (pseq (pchar buf '\\'.toNat) (pseq (pchar buf 'x'.toNat)
    (pplus buf (runHexDigit buf))))

/-- `OctalEscape <- ('\\' [0-7] [0-7]? [0-7]?)`. -/
def runOctalEscape (buf : Buf) : Nat → PRes :=
  ptag 20 (pseq (pchar buf '\\'.toNat) (pseq (prange buf '0'.toNat '7'.toNat)
    (pseq (popt (prange buf '0'.toNat '7'.toNat))
      (popt (prange buf '0'.toNat '7'.toNat)))))

/-- `SimpleEscape <- ('\\' ('\'' / '"' / '?' / '\\' / 'a' / 'b' / 'f' / 'n' / 'r' / 't' / 'v'))`. -/
def runSimpleEscape (buf : Buf) : Nat → PRes :=
  ptag 19 (pseq (pchar buf '\\'.toNat)
    (palt (pchar buf '\''.toNat) (palt (pchar buf '"'.toNat)
      (palt (pchar buf '?'.toNat) (palt (pchar buf '\\'.toNat)
        (palt (pchar buf 'a'.toNat) (palt (pchar buf 'b'.toNat)
          (palt (pchar buf 'f'.toNat) (palt (pchar buf 'n'.toNat)
            (palt (pchar buf 'r'.toNat) (palt (pchar buf 't'.toNat)
              (pchar buf 'v'.toNat))))))))))))

/-- `Escape <- (SimpleEscape / OctalEscape / HexEscape / UniversalCharacter)`. -/
def runEscape (buf : Buf) : Nat → PRes :=
  ptag 18 (palt (runSimpleEscape buf) (palt (runOctalEscape buf)
    (palt (runHexEscape buf) (runUniversalCharacter buf))))

/-- `StringChar <- (Escape / (!('"' / '\n' / '\\') .))`. -/
def runStringChar (buf : Buf) : Nat → PRes :=
  ptag 17 (palt (runEscape buf)
    (pseq (pnot (palt (pchar buf '"'.toNat)
        (palt (pchar buf '\n'.toNat) (pchar buf '\\'.toNat))))
      (pdot buf)))

/-- `String <- ('"' <StringChar*> '"')+` — note the capture sits inside the
quotes, and each adjacent quoted segment emits its own PegText token. -/
def runStringLit (buf : Buf) : Nat → PRes :=
  ptag 16 (pplus buf (pseq (pchar buf '"'.toNat)
    (pseq (pcap (pstar buf (runStringChar buf))) (pchar buf '"'.toNat))))

/-- `Unsigned <- [0-9]+`. -/
def runUnsigned (buf : Buf) : Nat → PRes :=
  ptag 25 (pplus buf (prange buf '0'.toNat '9'.toNat))

/-- `Sign <- ('-' / '+')`. -/
def runSign (buf : Buf) : Nat → PRes :=
  ptag 26 (palt (pchar buf '-'.toNat) (pchar buf '+'.toNat))

/-- `Integer <- <(Sign? Unsigned)>` — the capture is part of the rule itself. -/
def runInteger (buf : Buf) : Nat → PRes :=
  ptag 27 (pcap (pseq (popt (runSign buf)) (runUnsigned buf)))

/-- `Float <- (Integer ('.' Unsigned)? (('e' / 'E') Integer)?)` — both the
fractional part and the exponent are optional, so every `Integer` match is
also a `Float` match. -/
def runFloat (buf : Buf) : Nat → PRes :=
  ptag 28 (pseq (runInteger buf)
    (pseq (popt (pseq (pchar buf '.'.toNat) (runUnsigned buf)))
      (popt (pseq (palt (pchar buf 'e'.toNat) (pchar buf 'E'.toNat))
        (runInteger buf)))))

/-- `IdChar <- ([a-z] / [A-Z] / [0-9] / '_')`. -/
def runIdChar (buf : Buf) : Nat → PRes :=
  ptag 30 (palt (prange buf 'a'.toNat 'z'.toNat)
    (palt (prange buf 'A'.toNat 'Z'.toNat)
      (palt (prange buf '0'.toNat '9'.toNat) (pchar buf '_'.toNat))))

/-- `Keyword <- ((('s' 'e' 'l' 'e' 'c' 't') / ('g' 'r' 'o' 'u' 'p' ' ' 'b' 'y') /
('f' 'i' 'l' 't' 'e' 'r' 's') / ('o' 'r' 'd' 'e' 'r' ' ' 'b' 'y') /
('d' 'e' 's' 'c') / ('l' 'i' 'm' 'i' 't')) !IdChar)` — the literals are
lowercase runes only, with no uppercase alternatives. -/
def runKeyword (buf : Buf) : Nat → PRes :=
  ptag 31 (pseq
    (palt (pstr buf "select".data)
      (palt (pstr buf "group by".data)
        (palt (pstr buf "filters".data)
          (palt (pstr buf "order by".data)
            (palt (pstr buf "desc".data) (pstr buf "limit".data))))))
    (pnot (runIdChar buf)))

/-- `Identifier <- (!Keyword <(([a-z] / [A-Z] / '_') IdChar*)>)`. -/
def runIdentifier (buf : Buf) : Nat → PRes :=
  ptag 29 (pseq (pnot (runKeyword buf))
    (pcap (pseq (palt (prange buf 'a'.toNat 'z'.toNat)
        (palt (prange buf 'A'.toNat 'Z'.toNat) (pchar buf '_'.toNat)))
      (pstar buf (runIdChar buf)))))

/-- The starred alternative of the `_` rule: `' ' / '\t' / ('\r' '\n') / '\n' / '\r'`. -/
def wsAlt (buf : Buf) : Nat → PRes :=
  palt (pchar buf ' '.toNat)
    (palt (pchar buf '\t'.toNat)
      (palt (pseq (pchar buf '\r'.toNat) (pchar buf '\n'.toNat))
        (palt (pchar buf '\n'.toNat) (pchar buf '\r'.toNat))))

/-- `_ <- (' ' / '\t' / ('\r' '\n') / '\n' / '\r')*` — always succeeds. -/
def runWS (buf : Buf) : Nat → PRes :=
  ptag 32 (pstar buf (wsAlt buf))

/-- `LPAR <- (_ '(' _)`. -/
def runLPAR (buf : Buf) : Nat → PRes :=
  ptag 33 (pseq (runWS buf) (pseq (pchar buf '('.toNat) (runWS buf)))

/-- `RPAR <- (_ ')' _)`. -/
def runRPAR (buf : Buf) : Nat → PRes :=
  ptag 34 (pseq (runWS buf) (pseq (pchar buf ')'.toNat) (runWS buf)))

/-- `COMMA <- (_ ',' _)`. -/
def runCOMMA (buf : Buf) : Nat → PRes :=
  ptag 35 (pseq (runWS buf) (pseq (pchar buf ','.toNat) (runWS buf)))

/-- `OPERATOR <- ('=' / ('!' '=') / ('<' '=') / ('>' '=') / '<' / '>' /
(('m'/'M') ('a'/'A') ('t'/'T') ('c'/'C') ('h'/'H') ('e'/'E') ('s'/'S')))`. -/
def runOPERATOR (buf : Buf) : Nat → PRes :=
  ptag 11 (palt (pchar buf '='.toNat)
    (palt (pstr buf "!=".data)
      (palt (pstr buf "<=".data)
        (palt (pstr buf ">=".data)
          (palt (pchar buf '<'.toNat)
            (palt (pchar buf '>'.toNat) (pstrCI buf "matches".data)))))))

/-- `FilterKey <- (<Identifier> Action10)`. -/
def runFilterKey (buf : Buf) : Nat → PRes :=
  ptag 12 (pseq (pcap (runIdentifier buf)) (pact 10))

/-- `FilterOperator <- (<OPERATOR> Action11)`. -/
def runFilterOperator (buf : Buf) : Nat → PRes :=
  ptag 13 (pseq (pcap (runOPERATOR buf)) (pact 11))

/-- `FilterValue <- ((<Float> Action12) / (<Integer> Action13) / (<String> Action14))` —
ordered choice tries Float first; because `Float` also matches every plain
integer literal, the `Integer` alternative can never fire. -/
def runFilterValue (buf : Buf) : Nat → PRes :=
  ptag 14 (palt (pseq (pcap (runFloat buf)) (pact 12))
    (palt (pseq (pcap (runInteger buf)) (pact 13))
      (pseq (pcap (runStringLit buf)) (pact 14))))

/-- `Descending <- (('d'/'D') ('e'/'E') ('s'/'S') ('c'/'C') Action15)`. -/
def runDescending (buf : Buf) : Nat → PRes :=
  ptag 15 (pseq (pstrCI buf "desc".data) (pact 15))

/-- `LogicExpr <- ((LPAR LogicExpr RPAR) / (Action9 FilterKey _ FilterOperator _ FilterValue))`.
The self-recursion is bounded by a nesting budget: each level consumes at
least the `'('` matched by `LPAR`, so the budget `buf.length + 1` passed by
`WhereExpr` is never exhausted before the input runs out. -/
def runLogicExpr (buf : Buf) : Nat → Nat → PRes
  | 0, _ => none
  | fuel + 1, pos =>
    ptag 10 (palt
      (pseq (runLPAR buf) (pseq (runLogicExpr buf fuel) (runRPAR buf)))
      (pseq (pact 9) (pseq (runFilterKey buf) (pseq (runWS buf)
        (pseq (runFilterOperator buf) (pseq (runWS buf) (runFilterValue buf)))))))
      pos

/-- `WhereExpr <- (('w'/'W') ('h'/'H') ('e'/'E') ('r'/'R') ('e'/'E') _ LogicExpr (_ COMMA? LogicExpr)*)`. -/
def runWhereExpr (buf : Buf) : Nat → PRes :=
  ptag 4 (pseq (pstrCI buf "where".data) (pseq (runWS buf)
    (pseq (runLogicExpr buf (buf.length + 1))
      (pstar buf (pseq (runWS buf)
        (pseq (popt (runCOMMA buf)) (runLogicExpr buf (buf.length + 1))))))))

/-- `ColumnAggregation <- (<Identifier> Action7 LPAR <Identifier> RPAR Action8)`. -/
def runColumnAggregation (buf : Buf) : Nat → PRes :=
  ptag 9 (pseq (pcap (runIdentifier buf)) (pseq (pact 7)
    (pseq (runLPAR buf) (pseq (pcap (runIdentifier buf))
      (pseq (runRPAR buf) (pact 8))))))

/-- `Column <- (Action4 (ColumnAggregation / (<Identifier> _ Action5) / (<'*'> _ Action6)))`. -/
def runColumn (buf : Buf) : Nat → PRes :=
  ptag 8 (pseq (pact 4)
    (palt (runColumnAggregation buf)
      (palt (pseq (pcap (runIdentifier buf)) (pseq (runWS buf) (pact 5)))
        (pseq (pcap (pchar buf '*'.toNat)) (pseq (runWS buf) (pact 6))))))

/-- `Columns <- (Column (COMMA Column)*)`. -/
def runColumns (buf : Buf) : Nat → PRes :=
  ptag 7 (pseq (runColumn buf)
    (pstar buf (pseq (runCOMMA buf) (runColumn buf))))

/-- `ColumnExpr <- (('s'/'S') ('e'/'E') ('l'/'L') ('e'/'E') ('c'/'C') ('t'/'T') _ Action0 Columns)`. -/
def runColumnExpr (buf : Buf) : Nat → PRes :=
  ptag 2 (pseq (pstrCI buf "select".data) (pseq (runWS buf)
    (pseq (pact 0) (runColumns buf))))

/-- `GroupExpr <- (('g'/'G') ('r'/'R') ('o'/'O') ('u'/'U') ('p'/'P') ' ' ('b'/'B') ('y'/'Y') _ Action1 Columns)`. -/
def runGroupExpr (buf : Buf) : Nat → PRes :=
  ptag 3 (pseq (pstrCI buf "group by".data) (pseq (runWS buf)
    (pseq (pact 1) (runColumns buf))))

/-- `OrderByExpr <- (('o'/'O') ('r'/'R') ('d'/'D') ('e'/'E') ('r'/'R') ' ' ('b'/'B') ('y'/'Y') _ Action2 Columns Descending?)`. -/
def runOrderByExpr (buf : Buf) : Nat → PRes :=
  ptag 5 (pseq (pstrCI buf "order by".data) (pseq (runWS buf)
    (pseq (pact 2) (pseq (runColumns buf) (popt (runDescending buf))))))

/-- `LimitExpr <- (('l'/'L') ('i'/'I') ('m'/'M') ('i'/'I') ('t'/'T') _ <Unsigned> Action3)`. -/
def runLimitExpr (buf : Buf) : Nat → PRes :=
  ptag 6 (pseq (pstrCI buf "limit".data) (pseq (runWS buf)
    (pseq (pcap (runUnsigned buf)) (pact 3))))

/-- `Query <- (_ ColumnExpr? _ WhereExpr? _ GroupExpr? _ OrderByExpr? _ LimitExpr? _ !.)`. -/
def runQuery (buf : Buf) : Nat → PRes :=
  ptag 1 (pseq (runWS buf) (pseq (popt (runColumnExpr buf))
    (pseq (runWS buf) (pseq (popt (runWhereExpr buf))
      (pseq (runWS buf) (pseq (popt (runGroupExpr buf))
        (pseq (runWS buf) (pseq (popt (runOrderByExpr buf))
          (pseq (runWS buf) (pseq (popt (runLimitExpr buf))
            (pseq (runWS buf) (pnot (pdot buf)))))))))))))

/-! ## Query description (types.go) -/

/-- `ColumnDesc` describes a column: a name and an optional aggregate. -/
structure ColumnDesc where
  Name : String := ""
  Aggregate : String := ""
deriving Repr, DecidableEq

/-- A `float64` literal value, represented exactly as `mant * 10 ^ exp10`.
IEEE-754 rounding and overflow-to-infinity are not modelled; every literal
appearing in the theorems below is exactly representable, and no claim
depends on rounding.  Comparisons go through `scaledPair`, so two
representations of the same decimal value compare equal. -/
structure GoFloat where
  mant : Int
  exp10 : Int
deriving Repr, DecidableEq

/-- Bring two decimal floats to a common power of ten for comparison. -/
def scaledPair (a b : GoFloat) : Int × Int :=
  let m := min a.exp10 b.exp10
  (a.mant * 10 ^ (a.exp10 - m).toNat, b.mant * 10 ^ (b.exp10 - m).toNat)

/-- Value equality of decimal floats. -/
def gfEq (a b : GoFloat) : Bool := decide ((scaledPair a b).1 = (scaledPair a b).2)

/-- Value order of decimal floats. -/
def gfLt (a b : GoFloat) : Bool := decide ((scaledPair a b).1 < (scaledPair a b).2)

/-- Non-strict value order of decimal floats. -/
def gfLe (a b : GoFloat) : Bool := decide ((scaledPair a b).1 ≤ (scaledPair a b).2)

/-- A Go `interface{}` value as stored in `FilterDesc.Value` or a row.  The
parser stores `float64`, `int` or `string`; the zero `FilterDesc` holds nil. -/
inductive GoValue where
  | vNil
  | vInt (n : Int)
  | vFloat (f : GoFloat)
  | vStr (s : String)
deriving Repr, DecidableEq

/-- `FilterDesc` represents one filter expression. -/
structure FilterDesc where
  Column : String := ""
  Operator : String := ""
  Value : GoValue := .vNil
deriving Repr, DecidableEq

/-- `Query` describes a parsed query. -/
structure Query where
  Columns : List ColumnDesc := []
  GroupBy : List ColumnDesc := []
  Filters : List FilterDesc := []
  OrderBy : List ColumnDesc := []
  Descending : Bool := false
  Limit : Int := 0
deriving Repr, DecidableEq

/-! ## Go strconv / strings models

The builder feeds captured text to `strconv.Atoi`, `strconv.ParseInt`,
`strconv.ParseFloat` and `strings.Trim`, discarding the error results.
These are modelled from the Go standard library's documented behavior,
restricted to the text shapes the grammar can capture (`Unsigned` digits for
the limit, `Sign? Unsigned` for integers, the `Float` shape for floats). -/

def int64Max : Int := 9223372036854775807

def int64Min : Int := -9223372036854775808

/-- Decimal value of a digit run. -/
def digitsVal (l : List Char) : Nat :=
  l.foldl (fun acc c => 10 * acc + (c.toNat - 48)) 0

/-- `strconv.Atoi`: on a digit run, the value clamped into int64 range; the
Bool is the "error returned" flag (`ErrRange` on overflow — Go returns the
clamped extreme *together with* the error, and the builder keeps the value).
Non-digit text yields `(0, true)` (syntax error); the grammar never captures
such text for `SetLimit`. -/
def goAtoi (s : String) : Int × Bool :=
  if s.data ≠ [] ∧ s.data.all (fun c => '0' ≤ c ∧ c ≤ '9') then
    let v : Int := digitsVal s.data
    if v > int64Max then (int64Max, true) else (v, false)
  else (0, true)

/-- `strconv.ParseInt(s, 10, 64)` on `Sign? Unsigned` text, with the same
clamp-and-flag convention as `goAtoi`. -/
def goParseIntDec (s : String) : Int × Bool :=
  match s.data with
  | '-' :: ds =>
    if ds ≠ [] ∧ ds.all (fun c => '0' ≤ c ∧ c ≤ '9') then
      let v : Int := digitsVal ds
      if -v < int64Min then (int64Min, true) else (-v, false)
    else (0, true)
  | '+' :: ds =>
    if ds ≠ [] ∧ ds.all (fun c => '0' ≤ c ∧ c ≤ '9') then
      let v : Int := digitsVal ds
      if v > int64Max then (int64Max, true) else (v, false)
    else (0, true)
  | ds =>
    if ds ≠ [] ∧ ds.all (fun c => '0' ≤ c ∧ c ≤ '9') then
      let v : Int := digitsVal ds
      if v > int64Max then (int64Max, true) else (v, false)
    else (0, true)

/-- Leading sign of a numeric literal. -/
def splitSign : List Char → Int × List Char
  | '-' :: r => (-1, r)
  | '+' :: r => (1, r)
  | r => (1, r)

/-- `strconv.ParseFloat(s, 64)` on text matched by the `Float` rule
(`Sign? digits ('.' digits)? (('e'|'E') Sign? digits)?`): the exact value of
the decimal literal. -/
def goFloatVal (s : String) : GoFloat :=
  let (sg, r) := splitSign s.data
  let ip := r.takeWhile Char.isDigit
  let r1 := r.dropWhile Char.isDigit
  let fp := match r1 with
    | '.' :: t => t.takeWhile Char.isDigit
    | _ => []
  let r2 := match r1 with
    | '.' :: t => t.dropWhile Char.isDigit
    | _ => r1
  let ex : Int := match r2 with
    | 'e' :: t => (splitSign t).1 * digitsVal ((splitSign t).2.takeWhile Char.isDigit)
    | 'E' :: t => (splitSign t).1 * digitsVal ((splitSign t).2.takeWhile Char.isDigit)
    | _ => 0
  let mant : Int := sg * (digitsVal ip * 10 ^ fp.length + digitsVal fp)
  ⟨mant, ex - fp.length⟩

/-- `strings.Trim(s, "\"")`: remove *all* leading and trailing double-quote
characters (not just one surrounding pair). -/
def goTrimQuotes (s : String) : String :=
  ⟨((s.data.dropWhile (· = '"')).reverse.dropWhile (· = '"')).reverse⟩

/-! ## Builder (expression.go) -/

/-- The `expression` builder state embedded in the Go parser struct. -/
structure ExprState where
  query : Query := {}
  currentSection : String := ""
deriving Repr, DecidableEq

/-- Set the last element of a column list; `none` models the Go panic of
indexing `l[len(l)-1]` on an empty slice. -/
def setLastCol (f : ColumnDesc → ColumnDesc) : List ColumnDesc → Option (List ColumnDesc)
  | [] => none
  | [c] => some [f c]
  | c :: rest => (setLastCol f rest).map (c :: ·)

/-- Set the last element of the filter list; `none` models the Go panic. -/
def setLastFil (f : FilterDesc → FilterDesc) : List FilterDesc → Option (List FilterDesc)
  | [] => none
  | [c] => some [f c]
  | c :: rest => (setLastFil f rest).map (c :: ·)

/-- `AddColumn`: append an empty `ColumnDesc` to the current section's list
(no-op for an unrecognized section, as in the Go switch). -/
def AddColumn (e : ExprState) : ExprState :=
  match e.currentSection with
  | "columns" => { e with query := { e.query with Columns := e.query.Columns ++ [{}] } }
  | "group by" => { e with query := { e.query with GroupBy := e.query.GroupBy ++ [{}] } }
  | "order by" => { e with query := { e.query with OrderBy := e.query.OrderBy ++ [{}] } }
  | _ => e

/-- `SetColumnName`: mutate the last element of the active section's list. -/
def SetColumnName (name : String) (e : ExprState) : Option ExprState :=
  match e.currentSection with
  | "columns" => (setLastCol (fun c => { c with Name := name }) e.query.Columns).map
      (fun l => { e with query := { e.query with Columns := l } })
  | "group by" => (setLastCol (fun c => { c with Name := name }) e.query.GroupBy).map
      (fun l => { e with query := { e.query with GroupBy := l } })
  | "order by" => (setLastCol (fun c => { c with Name := name }) e.query.OrderBy).map
      (fun l => { e with query := { e.query with OrderBy := l } })
  | _ => some e

/-- `SetColumnAggregate`: mutate the last element of the active section's list. -/
def SetColumnAggregate (aggregate : String) (e : ExprState) : Option ExprState :=
  match e.currentSection with
  | "columns" => (setLastCol (fun c => { c with Aggregate := aggregate }) e.query.Columns).map
      (fun l => { e with query := { e.query with Columns := l } })
  | "group by" => (setLastCol (fun c => { c with Aggregate := aggregate }) e.query.GroupBy).map
      (fun l => { e with query := { e.query with GroupBy := l } })
  | "order by" => (setLastCol (fun c => { c with Aggregate := aggregate }) e.query.OrderBy).map
      (fun l => { e with query := { e.query with OrderBy := l } })
  | _ => some e

/-- `AddFilter`: append an empty `FilterDesc` (independent of the section). -/
def AddFilter (e : ExprState) : ExprState :=
  { e with query := { e.query with Filters := e.query.Filters ++ [{}] } }

/-- `SetFilterColumn`. -/
def SetFilterColumn (column : String) (e : ExprState) : Option ExprState :=
  (setLastFil (fun f => { f with Column := column }) e.query.Filters).map
    (fun l => { e with query := { e.query with Filters := l } })

/-- `SetFilterOperator`. -/
def SetFilterOperator (operator : String) (e : ExprState) : Option ExprState :=
  (setLastFil (fun f => { f with Operator := operator }) e.query.Filters).map
    (fun l => { e with query := { e.query with Filters := l } })

/-- `SetFilterValueFloat`: `strconv.ParseFloat`, error discarded. -/
def SetFilterValueFloat (value : String) (e : ExprState) : Option ExprState :=
  (setLastFil (fun f => { f with Value := .vFloat (goFloatVal value) }) e.query.Filters).map
    (fun l => { e with query := { e.query with Filters := l } })

/-- `SetFilterValueInteger`: `strconv.ParseInt(value, 10, 64)`, error discarded. -/
def SetFilterValueInteger (value : String) (e : ExprState) : Option ExprState :=
  (setLastFil (fun f => { f with Value := .vInt (goParseIntDec value).1 }) e.query.Filters).map
    (fun l => { e with query := { e.query with Filters := l } })

/-- `SetFilterValueString`: `strings.Trim(value, "\"")`. -/
def SetFilterValueString (value : String) (e : ExprState) : Option ExprState :=
  (setLastFil (fun f => { f with Value := .vStr (goTrimQuotes value) }) e.query.Filters).map
    (fun l => { e with query := { e.query with Filters := l } })

/-- `SetDescending`. -/
def SetDescending (e : ExprState) : ExprState :=
  { e with query := { e.query with Descending := true } }

/-- `SetLimit`: `strconv.Atoi`, error discarded. -/
def SetLimit (num : String) (e : ExprState) : ExprState :=
  { e with query := { e.query with Limit := (goAtoi num).1 } }

/-! ## Token execution (`parser.Execute`) -/

/-- Convert a captured rune slice back to a string (`string(_buffer[begin:end])`).
Captured spans only contain runes that came from the input string. -/
def runesStr (l : List Nat) : String := ⟨l.map Char.ofNat⟩

/-- Captured text of a span: `buffer[begin:end]`. -/
def capText (buf : Buf) (b e : Nat) : String := runesStr ((buf.drop b).take (e - b))

/-- Dispatch one `ruleActionN` case of the `Execute` switch.  `none` models a
Go runtime panic inside the builder. -/
def applyAct (n : Nat) (text : String) (e : ExprState) : Option ExprState :=
  match n with
  | 0 => some { e with currentSection := "columns" }
  | 1 => some { e with currentSection := "group by" }
  | 2 => some { e with currentSection := "order by" }
  | 3 => some (SetLimit text e)
  | 4 => some (AddColumn e)
  | 5 => SetColumnName text e
  | 6 => SetColumnName text e
  | 7 => SetColumnAggregate text e
  | 8 => SetColumnName text e
  | 9 => some (AddFilter e)
  | 10 => SetFilterColumn text e
  | 11 => SetFilterOperator text e
  | 12 => SetFilterValueFloat text e
  | 13 => SetFilterValueInteger text e
  | 14 => SetFilterValueString text e
  | 15 => some (SetDescending e)
  | _ => some e

/-- Walk the token list in index order, as `parser.Execute` does: `PegText`
tokens update the current text, action tokens run the builder, everything
else is skipped. -/
def execToks (buf : Buf) : List Tok → String × ExprState → Option (String × ExprState)
  | [], st => some st
  | .peg _ _ _ :: ts, st => execToks buf ts st
  | .text b e :: ts, st => execToks buf ts (capText buf b e, st.2)
  | .act n :: ts, st =>
    match applyAct n st.1 st.2 with
    | none => none
    | some e' => execToks buf ts (st.1, e')

/-- Outcome of `Parse` (expression.go): a parse error, a successful `Query`,
or — the case the never-panic claim rules out — a builder panic during
`p.Execute()`. -/
inductive ParseOutcome where
  | err
  | crash
  | ok (q : Query)
deriving Repr, DecidableEq

/-- `Parse`: run the `Query` rule from position 0, then execute the recorded
tokens with empty text and zero builder state. -/
def ParseQ (s : String) : ParseOutcome :=
  let buf := mkBuf s
  match runQuery buf 0 with
  | none => .err
  | some (_, toks) =>
    match execToks buf toks ("", {}) with
    | none => .crash
    | some st => .ok st.2.query

/-! ## Rows, cursors, tables (executor.go interfaces) -/

/-- A row: field names with values, looked up by name (`Row.Get`). -/
abbrev RowM := List (String × GoValue)

/-- `Row.Get`: value plus presence, as an `Option`. -/
def rowGet (r : RowM) (k : String) : Option GoValue :=
  (r.find? (fun p => p.1 = k)).map (·.2)

/-- An error surfaced by the row source; `unsupported` is `ErrUnsupported`,
`ext n` stands for any other distinct error value. -/
inductive GoError where
  | unsupported
  | ext (n : Nat)
deriving Repr, DecidableEq

/-- A cursor: the rows `Next`/`Row` will yield in order, and the value
`Err()` reports once consulted after the scan loop. -/
structure CursorM where
  rows : List RowM
  errv : Option GoError
deriving Repr, DecidableEq

/-- A table: `NewCursor` either fails or produces a cursor. -/
inductive TableM where
  | failNew (e : GoError)
  | mk (c : CursorM)
deriving Repr, DecidableEq

/-- Insert-or-overwrite one key of a map being built (`resRow.values[field] = v`). -/
def upsert (m : RowM) (k : String) (v : GoValue) : RowM :=
  if m.any (·.1 = k) then m.map (fun p => if p.1 = k then (k, v) else p)
  else m ++ [(k, v)]

/-- Field-by-field copy of a row into a fresh map, as the scan loop does
(`for _, field := range curRow.Fields() { v, _ := curRow.Get(field); ... }`).
Go map iteration order is unspecified; the copied row is modelled as an
association list in first-occurrence field order, which carries the same
field-to-value mapping. -/
def copyRow (r : RowM) : RowM :=
  r.foldl (fun m kv => upsert m kv.1 ((rowGet r kv.1).getD .vNil)) []

/-! ## Filter evaluation

Modelled from the spec: the repository's `buildFilters` and the per-filter
`Filter(row)` predicate live in a source file that is not under src/ (only
their caller in executor.go is).  Spec §4.3: look up the row value for the
filter's column (absent ⇒ false); coerce both operands to a common
representation — numeric with numeric, string with string, anything else ⇒
false; `=`/`!=` are equality, `<`,`<=`,`>`,`>=` are numeric order or
lexicographic string order, and `matches` is case-sensitive substring
containment of the filter value in the row value (the spec's stated default);
`buildFilters` itself never fails. -/

/-- A value coerced to a common comparable representation. -/
inductive Coerced where
  | num (f : GoFloat)
  | str (s : String)
deriving Repr, DecidableEq

/-- Modelled from the spec: coercion of a Go value for comparison.  `int` and
`float64` are numeric; `string` is textual; nil is incomparable. -/
def coerceV : GoValue → Option Coerced
  | .vInt n => some (.num ⟨n, 0⟩)
  | .vFloat f => some (.num f)
  | .vStr s => some (.str s)
  | .vNil => none

/-- Lexicographic order on rune lists, for string `<`. -/
def lexLt : List Char → List Char → Bool
  | [], [] => false
  | [], _ :: _ => true
  | _ :: _, [] => false
  | a :: as, b :: bs =>
    if a.toNat < b.toNat then true
    else if b.toNat < a.toNat then false
    else lexLt as bs

/-- Whether `pat` occurs as a contiguous prefix of `l`. -/
def isPre : List Char → List Char → Bool
  | [], _ => true
  | _ :: _, [] => false
  | p :: ps, c :: cs => (p == c) && isPre ps cs

/-- Case-sensitive substring containment of `pat` in `l`. -/
def isSub (pat l : List Char) : Bool :=
  match l with
  | [] => pat.isEmpty
  | _ :: rest => isPre pat l || isSub pat rest

/-- Modelled from the spec: numeric comparison `row op filter`.  `matches`
applies only to strings, so it is false on numbers; an operator outside the
grammar's set compares false. -/
def numCmp (op : String) (a b : GoFloat) : Bool :=
  if op = "=" then gfEq a b
  else if op = "!=" then !gfEq a b
  else if op = "<" then gfLt a b
  else if op = "<=" then gfLe a b
  else if op = ">" then gfLt b a
  else if op = ">=" then gfLe b a
  else false

/-- Modelled from the spec: string comparison `row op filter` with
lexicographic ordering and substring `matches`. -/
def strCmp (op : String) (a b : String) : Bool :=
  if op = "=" then decide (a = b)
  else if op = "!=" then decide (a ≠ b)
  else if op = "<" then lexLt a.data b.data
  else if op = "<=" then lexLt a.data b.data || decide (a = b)
  else if op = ">" then lexLt b.data a.data
  else if op = ">=" then lexLt b.data a.data || decide (a = b)
  else if op = "matches" then isSub b.data a.data
  else false

/-- Modelled from the spec: one filter applied to one row. -/
def filterEval (row : RowM) (fd : FilterDesc) : Bool :=
  match rowGet row fd.Column with
  | none => false
  | some v =>
    match coerceV v, coerceV fd.Value with
    | some (.num a), some (.num b) => numCmp fd.Operator a b
    | some (.str a), some (.str b) => strCmp fd.Operator a b
    | _, _ => false

/-- All filters of the query, AND-combined with short-circuit, as the scan
loop's inner `for _, f := range filters` does. -/
def rowPasses (fs : List FilterDesc) (r : RowM) : Bool :=
  fs.all (fun fd => filterEval r fd)

/-! ## Executor (executor.go `Execute`) -/

instance {ε α : Type} [DecidableEq ε] [DecidableEq α] : DecidableEq (Except ε α) := fun a b =>
  match a, b with
  | .error x, .error y =>
    if h : x = y then isTrue (by rw [h]) else isFalse (fun hh => h (Except.error.inj hh))
  | .ok x, .ok y =>
    if h : x = y then isTrue (by rw [h]) else isFalse (fun hh => h (Except.ok.inj hh))
  | .error _, .ok _ => isFalse (fun hh => Except.noConfusion hh)
  | .ok _, .error _ => isFalse (fun hh => Except.noConfusion hh)

/-- Instrumented outcome of `Execute`: the returned value (`*Result` rows or
the error), whether `Table.NewCursor` was invoked, and the rows the cursor
never reached (empty when the scan ran to exhaustion). -/
structure ExecOut where
  res : Except GoError (List RowM)
  opened : Bool
  remaining : List RowM
deriving Repr, DecidableEq

/-- The scan loop: advance the cursor; skip rows failing a filter; copy and
append qualifying rows; after an append, stop if a positive limit has been
reached.  Returns the accumulated result rows and the rows left unvisited. -/
def scanLoop (fs : List FilterDesc) (limit : Int) :
    List RowM → List RowM → List RowM × List RowM
  | acc, [] => (acc, [])
  | acc, r :: rest =>
    if rowPasses fs r then
      let acc' := acc ++ [copyRow r]
      if limit > 0 ∧ (acc'.length : Int) = limit then (acc', rest)
      else scanLoop fs limit acc' rest
    else scanLoop fs limit acc rest

/-- `Executor.Execute`: open a cursor only for a sole-`*` projection with
empty group-by; then reject group-by/order-by/aggregates; then scan, and
surface the cursor's terminal error, discarding accumulated rows.
(`buildFilters` is modelled as never failing, per the spec.) -/
def ExecuteM (q : Query) (t : TableM) : ExecOut :=
  match q.Columns with
  | [col] =>
    if col.Name = "*" ∧ q.GroupBy = [] then
      match t with
      | .failNew e => ⟨.error e, true, []⟩
      | .mk c =>
        if q.GroupBy.length > 0 ∨ q.OrderBy.length > 0 then
          ⟨.error .unsupported, true, c.rows⟩
        else if q.Columns.any (fun col => col.Aggregate ≠ "") then
          ⟨.error .unsupported, true, c.rows⟩
        else
          let r := scanLoop q.Filters q.Limit [] c.rows
          match c.errv with
          | some e => ⟨.error e, true, r.2⟩
          | none => ⟨.ok r.1, true, r.2⟩
    else ⟨.error .unsupported, false, []⟩
  | _ => ⟨.error .unsupported, false, []⟩

/-! ## Predicates about values and builder states -/

/-- Whether a value is the parser's integer typing. -/
def isIntVal : GoValue → Bool
  | .vInt _ => true
  | _ => false

/-- Numeric values (`int` or `float64`). -/
def isNumV : GoValue → Bool
  | .vInt _ => true
  | .vFloat _ => true
  | _ => false

/-- String values. -/
def isStrV : GoValue → Bool
  | .vStr _ => true
  | _ => false

/-- Builder-state invariant: whenever the current section names one of the
three column lists, that list is non-empty, so the set-column-name and
set-column-aggregate actions cannot index an empty slice. -/
def SecOK (e : ExprState) : Prop :=
  (e.currentSection = "columns" → e.query.Columns ≠ []) ∧
  (e.currentSection = "group by" → e.query.GroupBy ≠ []) ∧
  (e.currentSection = "order by" → e.query.OrderBy ≠ [])

/-- Builder-state invariant: no accumulated filter holds an integer-typed
value (the Integer alternative of FilterValue can never fire, because Float
subsumes it). -/
def NoIntF (e : ExprState) : Prop :=
  ∀ fd ∈ e.query.Filters, isIntVal fd.Value = false

/-- Invariant while the filter-building actions run: additionally the filter
list is non-empty, so the set-filter actions cannot index an empty slice. -/
def FiltOK (e : ExprState) : Prop := NoIntF e ∧ e.query.Filters ≠ []

/-- Hoare-style triple over the token walk: from any state satisfying `P`,
executing `ts` succeeds and the final state satisfies `Q`. -/
def HTr (buf : Buf) (P : ExprState → Prop) (ts : List Tok) (Q : ExprState → Prop) : Prop :=
  ∀ st : String × ExprState, P st.2 → ∃ st', execToks buf ts st = some st' ∧ Q st'.2

/-- Every token list a matcher can emit satisfies the triple `P … Q`. -/
def TokSafe (buf : Buf) (pr : Nat → PRes) (P Q : ExprState → Prop) : Prop :=
  ∀ pos p ts, pr pos = some (p, ts) → HTr buf P ts Q

/-! ## Supporting lemmas: the token walk -/

theorem execToks_append (buf : Buf) (t1 t2 : List Tok) (st : String × ExprState) :
    execToks buf (t1 ++ t2) st =
      match execToks buf t1 st with
      | none => none
      | some st' => execToks buf t2 st' := by
  induction t1 generalizing st with
  | nil => simp [execToks]
  | cons t ts ih =>
    cases t with
    | peg r b e => simpa [execToks] using ih st
    | text b e => simpa [execToks] using ih _
    | act n =>
      simp only [List.cons_append, execToks]
      cases applyAct n st.1 st.2 with
      | none => rfl
      | some e' => exact ih _

theorem HTr_nil (buf : Buf) (P : ExprState → Prop) : HTr buf P [] P := by
  intro st h
  exact ⟨st, rfl, h⟩

theorem HTr_weaken (buf : Buf) {P P' Q Q' : ExprState → Prop} {ts : List Tok}
    (hp : ∀ e, P' e → P e) (hq : ∀ e, Q e → Q' e) (h : HTr buf P ts Q) :
    HTr buf P' ts Q' := by
  intro st hst
  obtain ⟨st', he, hq'⟩ := h st (hp _ hst)
  exact ⟨st', he, hq _ hq'⟩

theorem HTr_append (buf : Buf) {P Q R : ExprState → Prop} {t1 t2 : List Tok}
    (h1 : HTr buf P t1 Q) (h2 : HTr buf Q t2 R) : HTr buf P (t1 ++ t2) R := by
  intro st hst
  obtain ⟨st', he1, hq⟩ := h1 st hst
  obtain ⟨st'', he2, hr⟩ := h2 st' hq
  refine ⟨st'', ?_, hr⟩
  rw [execToks_append, he1]
  exact he2

theorem HTr_peg (buf : Buf) (P : ExprState → Prop) (r b e : Nat) :
    HTr buf P [Tok.peg r b e] P := by
  intro st h
  exact ⟨st, rfl, h⟩

theorem HTr_text (buf : Buf) (P : ExprState → Prop) (b e : Nat) :
    HTr buf P [Tok.text b e] P := by
  intro st h
  exact ⟨(capText buf b e, st.2), rfl, h⟩

theorem HTr_act (buf : Buf) {P Q : ExprState → Prop} (n : Nat)
    (h : ∀ text e, P e → ∃ e', applyAct n text e = some e' ∧ Q e') :
    HTr buf P [Tok.act n] Q := by
  intro st hst
  obtain ⟨e', ha, hq⟩ := h st.1 st.2 hst
  refine ⟨(st.1, e'), ?_, hq⟩
  simp [execToks, ha]

/-! ## Supporting lemmas: combinator safety -/

theorem tokSafe_pchar (buf : Buf) (c : Nat) (P : ExprState → Prop) :
    TokSafe buf (pchar buf c) P P := by
  intro pos p ts hr
  unfold pchar at hr
  split at hr
  · simp only [Option.some.injEq, Prod.mk.injEq] at hr
    rw [← hr.2]
    exact HTr_nil buf P
  · simp at hr

theorem tokSafe_prange (buf : Buf) (lo hi : Nat) (P : ExprState → Prop) :
    TokSafe buf (prange buf lo hi) P P := by
  intro pos p ts hr
  unfold prange at hr
  split at hr
  · simp only [Option.some.injEq, Prod.mk.injEq] at hr
    rw [← hr.2]
    exact HTr_nil buf P
  · simp at hr

theorem tokSafe_pdot (buf : Buf) (P : ExprState → Prop) :
    TokSafe buf (pdot buf) P P := by
  intro pos p ts hr
  unfold pdot at hr
  split at hr
  · simp at hr
  · simp only [Option.some.injEq, Prod.mk.injEq] at hr
    rw [← hr.2]
    exact HTr_nil buf P

theorem tokSafe_pseq (buf : Buf) {a b : Nat → PRes} {P Q R : ExprState → Prop}
    (ha : TokSafe buf a P Q) (hb : TokSafe buf b Q R) :
    TokSafe buf (pseq a b) P R := by
  intro pos p ts hr
  unfold pseq at hr
  cases h1 : a pos with
  | none => simp [h1] at hr
  | some r1 =>
    obtain ⟨p1, t1⟩ := r1
    simp only [h1] at hr
    cases h2 : b p1 with
    | none => simp [h2] at hr
    | some r2 =>
      obtain ⟨p2, t2⟩ := r2
      simp only [h2, Option.some.injEq, Prod.mk.injEq] at hr
      rw [← hr.2]
      exact HTr_append buf (ha _ _ _ h1) (hb _ _ _ h2)

theorem tokSafe_palt (buf : Buf) {a b : Nat → PRes} {P Q : ExprState → Prop}
    (ha : TokSafe buf a P Q) (hb : TokSafe buf b P Q) :
    TokSafe buf (palt a b) P Q := by
  intro pos p ts hr
  unfold palt at hr
  cases h1 : a pos with
  | none => rw [h1] at hr; exact hb _ _ _ hr
  | some r1 =>
    rw [h1] at hr
    exact ha _ _ _ (h1.trans hr)

theorem tokSafe_popt (buf : Buf) {a : Nat → PRes} {P : ExprState → Prop}
    (ha : TokSafe buf a P P) : TokSafe buf (popt a) P P := by
  intro pos p ts hr
  unfold popt at hr
  cases h1 : a pos with
  | none =>
    simp only [h1, Option.some.injEq, Prod.mk.injEq] at hr
    rw [← hr.2]
    exact HTr_nil buf P
  | some r1 =>
    rw [h1] at hr
    exact ha _ _ _ (h1.trans hr)

theorem tokSafe_pnot (buf : Buf) (a : Nat → PRes) (P : ExprState → Prop) :
    TokSafe buf (pnot a) P P := by
  intro pos p ts hr
  unfold pnot at hr
  split at hr
  · simp at hr
  · simp only [Option.some.injEq, Prod.mk.injEq] at hr
    rw [← hr.2]
    exact HTr_nil buf P

theorem tokSafe_ptag (buf : Buf) {a : Nat → PRes} {P Q : ExprState → Prop} (r : Nat)
    (ha : TokSafe buf a P Q) : TokSafe buf (ptag r a) P Q := by
  intro pos p ts hr
  unfold ptag at hr
  cases h1 : a pos with
  | none => simp [h1] at hr
  | some r1 =>
    obtain ⟨p1, t1⟩ := r1
    simp only [h1, Option.some.injEq, Prod.mk.injEq] at hr
    rw [← hr.2]
    exact HTr_append buf (ha _ _ _ h1) (HTr_peg buf Q _ _ _)

theorem tokSafe_pcap (buf : Buf) {a : Nat → PRes} {P Q : ExprState → Prop}
    (ha : TokSafe buf a P Q) : TokSafe buf (pcap a) P Q := by
  intro pos p ts hr
  unfold pcap at hr
  cases h1 : a pos with
  | none => simp [h1] at hr
  | some r1 =>
    obtain ⟨p1, t1⟩ := r1
    simp only [h1, Option.some.injEq, Prod.mk.injEq] at hr
    rw [← hr.2]
    exact HTr_append buf (ha _ _ _ h1) (HTr_text buf Q _ _)

theorem tokSafe_pact (buf : Buf) {P Q : ExprState → Prop} (n : Nat)
    (h : ∀ text e, P e → ∃ e', applyAct n text e = some e' ∧ Q e') :
    TokSafe buf (pact n) P Q := by
  intro pos p ts hr
  unfold pact at hr
  simp only [Option.some.injEq, Prod.mk.injEq] at hr
  rw [← hr.2]
  exact HTr_act buf n h

theorem HTr_pstarF (buf : Buf) {a : Nat → PRes} {P : ExprState → Prop}
    (ha : TokSafe buf a P P) :
    ∀ f pos, HTr buf P (pstarF f a pos).2 P := by
  intro f
  induction f with
  | zero => intro pos; exact HTr_nil buf P
  | succ f ih =>
    intro pos
    unfold pstarF
    cases h1 : a pos with
    | none => exact HTr_nil buf P
    | some r1 =>
      obtain ⟨p1, t1⟩ := r1
      by_cases hlt : pos < p1
      · simpa [hlt] using HTr_append buf (ha _ _ _ h1) (ih p1)
      · simpa [hlt] using HTr_nil buf P

theorem tokSafe_pstar (buf : Buf) {a : Nat → PRes} {P : ExprState → Prop}
    (ha : TokSafe buf a P P) : TokSafe buf (pstar buf a) P P := by
  intro pos p ts hr
  unfold pstar at hr
  simp only [Option.some.injEq, Prod.mk.injEq] at hr
  rw [← hr.2]
  exact HTr_pstarF buf ha _ _

theorem tokSafe_pplus (buf : Buf) {a : Nat → PRes} {P : ExprState → Prop}
    (ha : TokSafe buf a P P) : TokSafe buf (pplus buf a) P P := by
  unfold pplus
  exact fun pos p ts hr =>
    tokSafe_pseq buf ha (tokSafe_pstar buf ha) pos p ts hr

theorem tokSafe_pstr (buf : Buf) (l : List Char) (P : ExprState → Prop) :
    TokSafe buf (pstr buf l) P P := by
  induction l with
  | nil =>
    intro pos p ts hr
    unfold pstr at hr
    simp only [Option.some.injEq, Prod.mk.injEq] at hr
    rw [← hr.2]
    exact HTr_nil buf P
  | cons c rest ih =>
    intro pos p ts hr
    unfold pstr at hr
    exact tokSafe_pseq buf (tokSafe_pchar buf c.toNat P) ih _ _ _ hr

theorem tokSafe_pcharCI (buf : Buf) (c : Char) (P : ExprState → Prop) :
    TokSafe buf (pcharCI buf c) P P := by
  unfold pcharCI
  split
  · exact tokSafe_palt buf (tokSafe_pchar buf _ P) (tokSafe_pchar buf _ P)
  · exact tokSafe_pchar buf _ P

theorem tokSafe_pstrCI (buf : Buf) (l : List Char) (P : ExprState → Prop) :
    TokSafe buf (pstrCI buf l) P P := by
  induction l with
  | nil =>
    intro pos p ts hr
    unfold pstrCI at hr
    simp only [Option.some.injEq, Prod.mk.injEq] at hr
    rw [← hr.2]
    exact HTr_nil buf P
  | cons c rest ih =>
    intro pos p ts hr
    unfold pstrCI at hr
    exact tokSafe_pseq buf (tokSafe_pcharCI buf c P) ih _ _ _ hr

/-! ## Supporting lemmas: builder actions -/

theorem setLastCol_some (f : ColumnDesc → ColumnDesc) :
    ∀ l : List ColumnDesc, l ≠ [] → ∃ l', setLastCol f l = some l' ∧ l' ≠ [] := by
  intro l
  induction l with
  | nil => intro h; exact absurd rfl h
  | cons c rest ih =>
    intro _
    cases rest with
    | nil => exact ⟨[f c], rfl, by simp⟩
    | cons c2 r2 =>
      obtain ⟨l', hl', hne⟩ := ih (by simp)
      exact ⟨c :: l', by simp [setLastCol, hl'], by simp⟩

theorem setLastFil_some (f : FilterDesc → FilterDesc) :
    ∀ l : List FilterDesc, l ≠ [] → ∃ l', setLastFil f l = some l' ∧ l' ≠ [] ∧
      ∀ fd' ∈ l', fd' ∈ l ∨ ∃ fd ∈ l, fd' = f fd := by
  intro l
  induction l with
  | nil => intro h; exact absurd rfl h
  | cons c rest ih =>
    intro _
    cases rest with
    | nil =>
      refine ⟨[f c], rfl, by simp, ?_⟩
      intro fd' hm
      simp only [List.mem_singleton] at hm
      exact Or.inr ⟨c, by simp, hm⟩
    | cons c2 r2 =>
      obtain ⟨l', hl', hne, hmem⟩ := ih (by simp)
      refine ⟨c :: l', by simp [setLastFil, hl'], by simp, ?_⟩
      intro fd' hm
      rcases List.mem_cons.mp hm with h | h
      · exact Or.inl (by simp [h])
      · rcases hmem fd' h with h2 | ⟨fd, hfd, heq⟩
        · exact Or.inl (List.mem_cons_of_mem _ h2)
        · exact Or.inr ⟨fd, List.mem_cons_of_mem _ hfd, heq⟩

theorem secOK_addColumn (e : ExprState) : SecOK (AddColumn e) := by
  unfold AddColumn SecOK
  split <;> refine ⟨?_, ?_, ?_⟩ <;> intro hsec <;> simp_all

theorem noIntF_addColumn (e : ExprState) (h : NoIntF e) : NoIntF (AddColumn e) := by
  unfold AddColumn
  unfold NoIntF at h ⊢
  split <;> simpa using h

theorem setColumnName_ok (t : String) (e : ExprState) (h : NoIntF e ∧ SecOK e) :
    ∃ e', SetColumnName t e = some e' ∧ (NoIntF e' ∧ SecOK e') := by
  obtain ⟨hn, h1, h2, h3⟩ := h
  unfold SetColumnName
  split
  next hs =>
    obtain ⟨l', hl', hne⟩ := setLastCol_some _ _ (h1 hs)
    refine ⟨_, by rw [hl']; rfl, ?_, ?_, ?_, ?_⟩
    · intro fd hfd; exact hn fd hfd
    · intro _; simpa using hne
    · intro hc; exact absurd (hs ▸ hc) (by decide)
    · intro hc; exact absurd (hs ▸ hc) (by decide)
  next hs =>
    obtain ⟨l', hl', hne⟩ := setLastCol_some _ _ (h2 hs)
    refine ⟨_, by rw [hl']; rfl, ?_, ?_, ?_, ?_⟩
    · intro fd hfd; exact hn fd hfd
    · intro hc; exact absurd (hs ▸ hc) (by decide)
    · intro _; simpa using hne
    · intro hc; exact absurd (hs ▸ hc) (by decide)
  next hs =>
    obtain ⟨l', hl', hne⟩ := setLastCol_some _ _ (h3 hs)
    refine ⟨_, by rw [hl']; rfl, ?_, ?_, ?_, ?_⟩
    · intro fd hfd; exact hn fd hfd
    · intro hc; exact absurd (hs ▸ hc) (by decide)
    · intro hc; exact absurd (hs ▸ hc) (by decide)
    · intro _; simpa using hne
  next =>
    exact ⟨e, rfl, hn, h1, h2, h3⟩

theorem setColumnAggregate_ok (t : String) (e : ExprState) (h : NoIntF e ∧ SecOK e) :
    ∃ e', SetColumnAggregate t e = some e' ∧ (NoIntF e' ∧ SecOK e') := by
  obtain ⟨hn, h1, h2, h3⟩ := h
  unfold SetColumnAggregate
  split
  next hs =>
    obtain ⟨l', hl', hne⟩ := setLastCol_some _ _ (h1 hs)
    refine ⟨_, by rw [hl']; rfl, ?_, ?_, ?_, ?_⟩
    · intro fd hfd; exact hn fd hfd
    · intro _; simpa using hne
    · intro hc; exact absurd (hs ▸ hc) (by decide)
    · intro hc; exact absurd (hs ▸ hc) (by decide)
  next hs =>
    obtain ⟨l', hl', hne⟩ := setLastCol_some _ _ (h2 hs)
    refine ⟨_, by rw [hl']; rfl, ?_, ?_, ?_, ?_⟩
    · intro fd hfd; exact hn fd hfd
    · intro hc; exact absurd (hs ▸ hc) (by decide)
    · intro _; simpa using hne
    · intro hc; exact absurd (hs ▸ hc) (by decide)
  next hs =>
    obtain ⟨l', hl', hne⟩ := setLastCol_some _ _ (h3 hs)
    refine ⟨_, by rw [hl']; rfl, ?_, ?_, ?_, ?_⟩
    · intro fd hfd; exact hn fd hfd
    · intro hc; exact absurd (hs ▸ hc) (by decide)
    · intro hc; exact absurd (hs ▸ hc) (by decide)
    · intro _; simpa using hne
  next =>
    exact ⟨e, rfl, hn, h1, h2, h3⟩

/-- Setting a field of the last filter while keeping its value — or writing a
non-integer value into it — preserves the no-integer-value invariant and the
non-emptiness of the filter list. -/
theorem setLastFil_filtOK (f : FilterDesc → FilterDesc)
    (hf : ∀ fd, (f fd).Value = fd.Value ∨ isIntVal (f fd).Value = false)
    (e : ExprState) (h : FiltOK e) :
    ∃ l', setLastFil f e.query.Filters = some l' ∧
      (∀ fd ∈ l', isIntVal fd.Value = false) ∧ l' ≠ [] := by
  obtain ⟨hn, hne⟩ := h
  obtain ⟨l', hl', hne', hmem⟩ := setLastFil_some f _ hne
  refine ⟨l', hl', ?_, hne'⟩
  intro fd' hfd'
  rcases hmem fd' hfd' with hm | ⟨fd, hfd, heq⟩
  · exact hn fd' hm
  · rcases hf fd with hv | hv
    · rw [heq, hv]
      exact hn fd hfd
    · rw [heq]; exact hv

theorem tokSafe_weaken (buf : Buf) {pr : Nat → PRes} {P P' Q Q' : ExprState → Prop}
    (hp : ∀ e, P' e → P e) (hq : ∀ e, Q e → Q' e) (h : TokSafe buf pr P Q) :
    TokSafe buf pr P' Q' :=
  fun pos p ts hr => HTr_weaken buf hp hq (h pos p ts hr)

theorem filtOK_applyAct9 (text : String) (e : ExprState) (h : NoIntF e) :
    ∃ e', applyAct 9 text e = some e' ∧ FiltOK e' := by
  refine ⟨AddFilter e, rfl, ?_, by simp [AddFilter]⟩
  intro fd hfd
  rcases List.mem_append.mp hfd with hm | hm
  · exact h fd hm
  · simp only [List.mem_singleton] at hm
    rw [hm]
    rfl

theorem filtOK_applyAct10 (text : String) (e : ExprState) (h : FiltOK e) :
    ∃ e', applyAct 10 text e = some e' ∧ FiltOK e' := by
  obtain ⟨l', hl', hp, hne⟩ :=
    setLastFil_filtOK (fun f => { f with Column := text }) (fun fd => Or.inl rfl) e h
  refine ⟨{ e with query := { e.query with Filters := l' } }, ?_, hp, hne⟩
  show SetFilterColumn text e = _
  rw [SetFilterColumn, hl']
  rfl

theorem filtOK_applyAct11 (text : String) (e : ExprState) (h : FiltOK e) :
    ∃ e', applyAct 11 text e = some e' ∧ FiltOK e' := by
  obtain ⟨l', hl', hp, hne⟩ :=
    setLastFil_filtOK (fun f => { f with Operator := text }) (fun fd => Or.inl rfl) e h
  refine ⟨{ e with query := { e.query with Filters := l' } }, ?_, hp, hne⟩
  show SetFilterOperator text e = _
  rw [SetFilterOperator, hl']
  rfl

theorem filtOK_applyAct12 (text : String) (e : ExprState) (h : FiltOK e) :
    ∃ e', applyAct 12 text e = some e' ∧ FiltOK e' := by
  obtain ⟨l', hl', hp, hne⟩ :=
    setLastFil_filtOK (fun f => { f with Value := .vFloat (goFloatVal text) })
      (fun fd => Or.inr rfl) e h
  refine ⟨{ e with query := { e.query with Filters := l' } }, ?_, hp, hne⟩
  show SetFilterValueFloat text e = _
  rw [SetFilterValueFloat, hl']
  rfl

theorem filtOK_applyAct14 (text : String) (e : ExprState) (h : FiltOK e) :
    ∃ e', applyAct 14 text e = some e' ∧ FiltOK e' := by
  obtain ⟨l', hl', hp, hne⟩ :=
    setLastFil_filtOK (fun f => { f with Value := .vStr (goTrimQuotes text) })
      (fun fd => Or.inr rfl) e h
  refine ⟨{ e with query := { e.query with Filters := l' } }, ?_, hp, hne⟩
  show SetFilterValueString text e = _
  rw [SetFilterValueString, hl']
  rfl

/-! ## Supporting lemmas: per-rule safety

For the lexical rules (no semantic actions) the triple holds for every
invariant; for the action-bearing rules the pre/postconditions track the
no-integer-value invariant `NoIntF`, the section invariant `SecOK` while
columns are being built, and `FiltOK` while a filter is being built. -/

theorem tsafe_runHexDigit (buf : Buf) (P : ExprState → Prop) :
    TokSafe buf (runHexDigit buf) P P := by
  unfold runHexDigit
  exact tokSafe_ptag buf _ (tokSafe_palt buf (tokSafe_prange buf _ _ P)
    (tokSafe_palt buf (tokSafe_prange buf _ _ P) (tokSafe_prange buf _ _ P)))

theorem tsafe_runHexQuad (buf : Buf) (P : ExprState → Prop) :
    TokSafe buf (runHexQuad buf) P P := by
  unfold runHexQuad
  exact tokSafe_ptag buf _ (tokSafe_pseq buf (tsafe_runHexDigit buf P)
    (tokSafe_pseq buf (tsafe_runHexDigit buf P)
      (tokSafe_pseq buf (tsafe_runHexDigit buf P) (tsafe_runHexDigit buf P))))

theorem tsafe_runUniversalCharacter (buf : Buf) (P : ExprState → Prop) :
    TokSafe buf (runUniversalCharacter buf) P P := by
  unfold runUniversalCharacter
  exact tokSafe_ptag buf _ (tokSafe_palt buf
    (tokSafe_pseq buf (tokSafe_pchar buf _ P)
      (tokSafe_pseq buf (tokSafe_pchar buf _ P) (tsafe_runHexQuad buf P)))
    (tokSafe_pseq buf (tokSafe_pchar buf _ P)
      (tokSafe_pseq buf (tokSafe_pchar buf _ P)
        (tokSafe_pseq buf (tsafe_runHexQuad buf P) (tsafe_runHexQuad buf P)))))

theorem tsafe_runHexEscape (buf : Buf) (P : ExprState → Prop) :
    TokSafe buf (runHexEscape buf) P P := by
  unfold runHexEscape
  exact tokSafe_ptag buf _ (tokSafe_pseq buf (tokSafe_pchar buf _ P)
    (tokSafe_pseq buf (tokSafe_pchar buf _ P)
      (tokSafe_pplus buf (tsafe_runHexDigit buf P))))

theorem tsafe_runOctalEscape (buf : Buf) (P : ExprState → Prop) :
    TokSafe buf (runOctalEscape buf) P P := by
  unfold runOctalEscape
  exact tokSafe_ptag buf _ (tokSafe_pseq buf (tokSafe_pchar buf _ P)
    (tokSafe_pseq buf (tokSafe_prange buf _ _ P)
      (tokSafe_pseq buf (tokSafe_popt buf (tokSafe_prange buf _ _ P))
        (tokSafe_popt buf (tokSafe_prange buf _ _ P)))))

theorem tsafe_runSimpleEscape (buf : Buf) (P : ExprState → Prop) :
    TokSafe buf (runSimpleEscape buf) P P := by
  unfold runSimpleEscape
  refine tokSafe_ptag buf _ (tokSafe_pseq buf (tokSafe_pchar buf _ P) ?_)
  exact tokSafe_palt buf (tokSafe_pchar buf _ P) (tokSafe_palt buf (tokSafe_pchar buf _ P)
    (tokSafe_palt buf (tokSafe_pchar buf _ P) (tokSafe_palt buf (tokSafe_pchar buf _ P)
      (tokSafe_palt buf (tokSafe_pchar buf _ P) (tokSafe_palt buf (tokSafe_pchar buf _ P)
        (tokSafe_palt buf (tokSafe_pchar buf _ P) (tokSafe_palt buf (tokSafe_pchar buf _ P)
          (tokSafe_palt buf (tokSafe_pchar buf _ P)
            (tokSafe_palt buf (tokSafe_pchar buf _ P) (tokSafe_pchar buf _ P))))))))))

theorem tsafe_runEscape (buf : Buf) (P : ExprState → Prop) :
    TokSafe buf (runEscape buf) P P := by
  unfold runEscape
  exact tokSafe_ptag buf _ (tokSafe_palt buf (tsafe_runSimpleEscape buf P)
    (tokSafe_palt buf (tsafe_runOctalEscape buf P)
      (tokSafe_palt buf (tsafe_runHexEscape buf P) (tsafe_runUniversalCharacter buf P))))

theorem tsafe_runStringChar (buf : Buf) (P : ExprState → Prop) :
    TokSafe buf (runStringChar buf) P P := by
  unfold runStringChar
  exact tokSafe_ptag buf _ (tokSafe_palt buf (tsafe_runEscape buf P)
    (tokSafe_pseq buf (tokSafe_pnot buf _ P) (tokSafe_pdot buf P)))

theorem tsafe_runStringLit (buf : Buf) (P : ExprState → Prop) :
    TokSafe buf (runStringLit buf) P P := by
  unfold runStringLit
  exact tokSafe_ptag buf _ (tokSafe_pplus buf (tokSafe_pseq buf (tokSafe_pchar buf _ P)
    (tokSafe_pseq buf (tokSafe_pcap buf (tokSafe_pstar buf (tsafe_runStringChar buf P)))
      (tokSafe_pchar buf _ P))))

theorem tsafe_runUnsigned (buf : Buf) (P : ExprState → Prop) :
    TokSafe buf (runUnsigned buf) P P := by
  unfold runUnsigned
  exact tokSafe_ptag buf _ (tokSafe_pplus buf (tokSafe_prange buf _ _ P))

theorem tsafe_runSign (buf : Buf) (P : ExprState → Prop) :
    TokSafe buf (runSign buf) P P := by
  unfold runSign
  exact tokSafe_ptag buf _ (tokSafe_palt buf (tokSafe_pchar buf _ P) (tokSafe_pchar buf _ P))

theorem tsafe_runInteger (buf : Buf) (P : ExprState → Prop) :
    TokSafe buf (runInteger buf) P P := by
  unfold runInteger
  exact tokSafe_ptag buf _ (tokSafe_pcap buf (tokSafe_pseq buf
    (tokSafe_popt buf (tsafe_runSign buf P)) (tsafe_runUnsigned buf P)))

theorem tsafe_runFloat (buf : Buf) (P : ExprState → Prop) :
    TokSafe buf (runFloat buf) P P := by
  unfold runFloat
  exact tokSafe_ptag buf _ (tokSafe_pseq buf (tsafe_runInteger buf P)
    (tokSafe_pseq buf
      (tokSafe_popt buf (tokSafe_pseq buf (tokSafe_pchar buf _ P) (tsafe_runUnsigned buf P)))
      (tokSafe_popt buf (tokSafe_pseq buf
        (tokSafe_palt buf (tokSafe_pchar buf _ P) (tokSafe_pchar buf _ P))
        (tsafe_runInteger buf P)))))

theorem tsafe_runIdChar (buf : Buf) (P : ExprState → Prop) :
    TokSafe buf (runIdChar buf) P P := by
  unfold runIdChar
  exact tokSafe_ptag buf _ (tokSafe_palt buf (tokSafe_prange buf _ _ P)
    (tokSafe_palt buf (tokSafe_prange buf _ _ P)
      (tokSafe_palt buf (tokSafe_prange buf _ _ P) (tokSafe_pchar buf _ P))))

theorem tsafe_runKeyword (buf : Buf) (P : ExprState → Prop) :
    TokSafe buf (runKeyword buf) P P := by
  unfold runKeyword
  exact tokSafe_ptag buf _ (tokSafe_pseq buf
    (tokSafe_palt buf (tokSafe_pstr buf _ P) (tokSafe_palt buf (tokSafe_pstr buf _ P)
      (tokSafe_palt buf (tokSafe_pstr buf _ P) (tokSafe_palt buf (tokSafe_pstr buf _ P)
        (tokSafe_palt buf (tokSafe_pstr buf _ P) (tokSafe_pstr buf _ P))))))
    (tokSafe_pnot buf _ P))

theorem tsafe_runIdentifier (buf : Buf) (P : ExprState → Prop) :
    TokSafe buf (runIdentifier buf) P P := by
  unfold runIdentifier
  exact tokSafe_ptag buf _ (tokSafe_pseq buf (tokSafe_pnot buf _ P)
    (tokSafe_pcap buf (tokSafe_pseq buf
      (tokSafe_palt buf (tokSafe_prange buf _ _ P)
        (tokSafe_palt buf (tokSafe_prange buf _ _ P) (tokSafe_pchar buf _ P)))
      (tokSafe_pstar buf (tsafe_runIdChar buf P)))))

theorem tsafe_runWS (buf : Buf) (P : ExprState → Prop) :
    TokSafe buf (runWS buf) P P := by
  unfold runWS wsAlt
  exact tokSafe_ptag buf _ (tokSafe_pstar buf (tokSafe_palt buf (tokSafe_pchar buf _ P)
    (tokSafe_palt buf (tokSafe_pchar buf _ P)
      (tokSafe_palt buf (tokSafe_pseq buf (tokSafe_pchar buf _ P) (tokSafe_pchar buf _ P))
        (tokSafe_palt buf (tokSafe_pchar buf _ P) (tokSafe_pchar buf _ P))))))

theorem tsafe_runLPAR (buf : Buf) (P : ExprState → Prop) :
    TokSafe buf (runLPAR buf) P P := by
  unfold runLPAR
  exact tokSafe_ptag buf _ (tokSafe_pseq buf (tsafe_runWS buf P)
    (tokSafe_pseq buf (tokSafe_pchar buf _ P) (tsafe_runWS buf P)))

theorem tsafe_runRPAR (buf : Buf) (P : ExprState → Prop) :
    TokSafe buf (runRPAR buf) P P := by
  unfold runRPAR
  exact tokSafe_ptag buf _ (tokSafe_pseq buf (tsafe_runWS buf P)
    (tokSafe_pseq buf (tokSafe_pchar buf _ P) (tsafe_runWS buf P)))

theorem tsafe_runCOMMA (buf : Buf) (P : ExprState → Prop) :
    TokSafe buf (runCOMMA buf) P P := by
  unfold runCOMMA
  exact tokSafe_ptag buf _ (tokSafe_pseq buf (tsafe_runWS buf P)
    (tokSafe_pseq buf (tokSafe_pchar buf _ P) (tsafe_runWS buf P)))

theorem tsafe_runOPERATOR (buf : Buf) (P : ExprState → Prop) :
    TokSafe buf (runOPERATOR buf) P P := by
  unfold runOPERATOR
  exact tokSafe_ptag buf _ (tokSafe_palt buf (tokSafe_pchar buf _ P)
    (tokSafe_palt buf (tokSafe_pstr buf _ P) (tokSafe_palt buf (tokSafe_pstr buf _ P)
      (tokSafe_palt buf (tokSafe_pstr buf _ P) (tokSafe_palt buf (tokSafe_pchar buf _ P)
        (tokSafe_palt buf (tokSafe_pchar buf _ P) (tokSafe_pstrCI buf _ P)))))))

theorem tsafe_runFilterKey (buf : Buf) :
    TokSafe buf (runFilterKey buf) FiltOK FiltOK := by
  unfold runFilterKey
  exact tokSafe_ptag buf _ (tokSafe_pseq buf
    (tokSafe_pcap buf (tsafe_runIdentifier buf FiltOK))
    (tokSafe_pact buf 10 filtOK_applyAct10))

theorem tsafe_runFilterOperator (buf : Buf) :
    TokSafe buf (runFilterOperator buf) FiltOK FiltOK := by
  unfold runFilterOperator
  exact tokSafe_ptag buf _ (tokSafe_pseq buf
    (tokSafe_pcap buf (tsafe_runOPERATOR buf FiltOK))
    (tokSafe_pact buf 11 filtOK_applyAct11))

theorem popt_some (a : Nat → PRes) (pos : Nat) : ∃ r, popt a pos = some r := by
  unfold popt
  cases a pos <;> exact ⟨_, rfl⟩

/-- Every `Integer` match is also a `Float` match: `Float` is `Integer`
followed by two optional parts, and optionals always succeed. -/
theorem runFloat_of_runInteger (buf : Buf) (pos p1 : Nat) (t1 : List Tok)
    (h : runInteger buf pos = some (p1, t1)) :
    ∃ r', runFloat buf pos = some r' := by
  obtain ⟨⟨q1, u1⟩, h1⟩ :=
    popt_some (pseq (pchar buf '.'.toNat) (runUnsigned buf)) p1
  obtain ⟨⟨q2, u2⟩, h2⟩ :=
    popt_some (pseq (palt (pchar buf 'e'.toNat) (pchar buf 'E'.toNat)) (runInteger buf)) q1
  refine ⟨(q2, (t1 ++ (u1 ++ u2)) ++ [Tok.peg 28 pos q2]), ?_⟩
  have h1' : popt (pseq (pchar buf 46) (runUnsigned buf)) p1 = some (q1, u1) := h1
  have h2' : popt (pseq (palt (pchar buf 101) (pchar buf 69)) (runInteger buf)) q1 =
      some (q2, u2) := h2
  simp [runFloat, ptag, pseq, h, h1', h2']

theorem tsafe_runFilterValue (buf : Buf) :
    TokSafe buf (runFilterValue buf) FiltOK FiltOK := by
  have hF : TokSafe buf (pseq (pcap (runFloat buf)) (pact 12)) FiltOK FiltOK :=
    tokSafe_pseq buf (tokSafe_pcap buf (tsafe_runFloat buf FiltOK))
      (tokSafe_pact buf 12 filtOK_applyAct12)
  have hS : TokSafe buf (pseq (pcap (runStringLit buf)) (pact 14)) FiltOK FiltOK :=
    tokSafe_pseq buf (tokSafe_pcap buf (tsafe_runStringLit buf FiltOK))
      (tokSafe_pact buf 14 filtOK_applyAct14)
  intro pos p ts hr
  unfold runFilterValue at hr
  rw [ptag] at hr
  cases h1 : palt (pseq (pcap (runFloat buf)) (pact 12))
      (palt (pseq (pcap (runInteger buf)) (pact 13))
        (pseq (pcap (runStringLit buf)) (pact 14))) pos with
  | none => simp [h1] at hr
  | some r1 =>
    obtain ⟨p1, t1⟩ := r1
    simp only [h1, Option.some.injEq, Prod.mk.injEq] at hr
    rw [← hr.2]
    rw [palt] at h1
    cases hFa : pseq (pcap (runFloat buf)) (pact 12) pos with
    | some rF =>
      rw [hFa] at h1
      have h1' : pseq (pcap (runFloat buf)) (pact 12) pos = some (p1, t1) := hFa.trans h1
      exact HTr_append buf (hF _ _ _ h1') (HTr_peg buf FiltOK _ _ _)
    | none =>
      rw [hFa] at h1
      rw [palt] at h1
      cases hI : pseq (pcap (runInteger buf)) (pact 13) pos with
      | some rI =>
        exfalso
        rw [pseq] at hI
        cases hc : pcap (runInteger buf) pos with
        | none => simp [hc] at hI
        | some rc =>
          rw [pcap] at hc
          cases hi : runInteger buf pos with
          | none => simp [hi] at hc
          | some ri =>
            obtain ⟨pi, ti⟩ := ri
            obtain ⟨r', hr'⟩ := runFloat_of_runInteger buf pos pi ti hi
            have : pseq (pcap (runFloat buf)) (pact 12) pos =
                some (r'.1, (r'.2 ++ [Tok.text pos r'.1]) ++ [Tok.act 12]) := by
              simp [pseq, pcap, pact, hr']
            rw [this] at hFa
            exact Option.noConfusion hFa
      | none =>
        rw [hI] at h1
        exact HTr_append buf (hS _ _ _ h1) (HTr_peg buf FiltOK _ _ _)

theorem tsafe_runLogicExpr (buf : Buf) :
    ∀ fuel, TokSafe buf (runLogicExpr buf fuel) NoIntF NoIntF := by
  intro fuel
  induction fuel with
  | zero =>
    intro pos p ts hr
    simp [runLogicExpr] at hr
  | succ f ih =>
    intro pos p ts hr
    unfold runLogicExpr at hr
    refine tokSafe_ptag buf 10 (tokSafe_palt buf ?_ ?_) pos p ts hr
    · exact tokSafe_pseq buf (tsafe_runLPAR buf NoIntF)
        (tokSafe_pseq buf ih (tsafe_runRPAR buf NoIntF))
    · refine tokSafe_pseq buf (tokSafe_pact buf 9 filtOK_applyAct9) ?_
      refine tokSafe_pseq buf (tsafe_runFilterKey buf) ?_
      refine tokSafe_pseq buf (tsafe_runWS buf FiltOK) ?_
      refine tokSafe_pseq buf (tsafe_runFilterOperator buf) ?_
      refine tokSafe_pseq buf (tsafe_runWS buf FiltOK) ?_
      exact tokSafe_weaken buf (fun e h => h) (fun e h => h.1) (tsafe_runFilterValue buf)

theorem tsafe_runWhereExpr (buf : Buf) :
    TokSafe buf (runWhereExpr buf) NoIntF NoIntF := by
  unfold runWhereExpr
  refine tokSafe_ptag buf _ (tokSafe_pseq buf (tokSafe_pstrCI buf _ NoIntF) ?_)
  refine tokSafe_pseq buf (tsafe_runWS buf NoIntF) ?_
  refine tokSafe_pseq buf (tsafe_runLogicExpr buf _) ?_
  refine tokSafe_pstar buf ?_
  refine tokSafe_pseq buf (tsafe_runWS buf NoIntF) ?_
  exact tokSafe_pseq buf (tokSafe_popt buf (tsafe_runCOMMA buf NoIntF))
    (tsafe_runLogicExpr buf _)

theorem tsafe_runColumnAggregation (buf : Buf) :
    TokSafe buf (runColumnAggregation buf) (fun e => NoIntF e ∧ SecOK e)
      (fun e => NoIntF e ∧ SecOK e) := by
  unfold runColumnAggregation
  refine tokSafe_ptag buf _ ?_
  refine tokSafe_pseq buf (tokSafe_pcap buf (tsafe_runIdentifier buf _)) ?_
  refine tokSafe_pseq buf (tokSafe_pact buf 7 setColumnAggregate_ok) ?_
  refine tokSafe_pseq buf (tsafe_runLPAR buf _) ?_
  refine tokSafe_pseq buf (tokSafe_pcap buf (tsafe_runIdentifier buf _)) ?_
  exact tokSafe_pseq buf (tsafe_runRPAR buf _) (tokSafe_pact buf 8 setColumnName_ok)

theorem tsafe_runColumn (buf : Buf) :
    TokSafe buf (runColumn buf) NoIntF NoIntF := by
  unfold runColumn
  refine tokSafe_ptag buf _ ?_
  refine @tokSafe_pseq buf _ _ NoIntF (fun e => NoIntF e ∧ SecOK e) NoIntF ?_ ?_
  · exact tokSafe_pact buf 4
      (fun text e h => ⟨AddColumn e, rfl, noIntF_addColumn e h, secOK_addColumn e⟩)
  refine @tokSafe_weaken buf _ (fun e => NoIntF e ∧ SecOK e) (fun e => NoIntF e ∧ SecOK e)
    (fun e => NoIntF e ∧ SecOK e) NoIntF (fun e h => h) (fun e h => h.1) ?_
  refine tokSafe_palt buf (tsafe_runColumnAggregation buf) ?_
  refine tokSafe_palt buf ?_ ?_
  · exact tokSafe_pseq buf (tokSafe_pcap buf (tsafe_runIdentifier buf _))
      (tokSafe_pseq buf (tsafe_runWS buf _) (tokSafe_pact buf 5 setColumnName_ok))
  · exact tokSafe_pseq buf (tokSafe_pcap buf (tokSafe_pchar buf _ _))
      (tokSafe_pseq buf (tsafe_runWS buf _) (tokSafe_pact buf 6 setColumnName_ok))

theorem tsafe_runColumns (buf : Buf) :
    TokSafe buf (runColumns buf) NoIntF NoIntF := by
  unfold runColumns
  exact tokSafe_ptag buf _ (tokSafe_pseq buf (tsafe_runColumn buf)
    (tokSafe_pstar buf (tokSafe_pseq buf (tsafe_runCOMMA buf NoIntF) (tsafe_runColumn buf))))

theorem tsafe_runColumnExpr (buf : Buf) :
    TokSafe buf (runColumnExpr buf) NoIntF NoIntF := by
  unfold runColumnExpr
  refine tokSafe_ptag buf _ (tokSafe_pseq buf (tokSafe_pstrCI buf _ NoIntF) ?_)
  refine tokSafe_pseq buf (tsafe_runWS buf NoIntF) ?_
  refine tokSafe_pseq buf (tokSafe_pact buf 0 ?_) (tsafe_runColumns buf)
  exact fun text e h => ⟨{ e with currentSection := "columns" }, rfl, h⟩

theorem tsafe_runGroupExpr (buf : Buf) :
    TokSafe buf (runGroupExpr buf) NoIntF NoIntF := by
  unfold runGroupExpr
  refine tokSafe_ptag buf _ (tokSafe_pseq buf (tokSafe_pstrCI buf _ NoIntF) ?_)
  refine tokSafe_pseq buf (tsafe_runWS buf NoIntF) ?_
  refine tokSafe_pseq buf (tokSafe_pact buf 1 ?_) (tsafe_runColumns buf)
  exact fun text e h => ⟨{ e with currentSection := "group by" }, rfl, h⟩

theorem tsafe_runDescending (buf : Buf) :
    TokSafe buf (runDescending buf) NoIntF NoIntF := by
  unfold runDescending
  refine tokSafe_ptag buf _ (tokSafe_pseq buf (tokSafe_pstrCI buf _ NoIntF)
    (tokSafe_pact buf 15 ?_))
  exact fun text e h => ⟨SetDescending e, rfl, h⟩

theorem tsafe_runOrderByExpr (buf : Buf) :
    TokSafe buf (runOrderByExpr buf) NoIntF NoIntF := by
  unfold runOrderByExpr
  refine tokSafe_ptag buf _ (tokSafe_pseq buf (tokSafe_pstrCI buf _ NoIntF) ?_)
  refine tokSafe_pseq buf (tsafe_runWS buf NoIntF) ?_
  refine tokSafe_pseq buf (tokSafe_pact buf 2 ?_)
    (tokSafe_pseq buf (tsafe_runColumns buf) (tokSafe_popt buf (tsafe_runDescending buf)))
  exact fun text e h => ⟨{ e with currentSection := "order by" }, rfl, h⟩

theorem tsafe_runLimitExpr (buf : Buf) :
    TokSafe buf (runLimitExpr buf) NoIntF NoIntF := by
  unfold runLimitExpr
  refine tokSafe_ptag buf _ (tokSafe_pseq buf (tokSafe_pstrCI buf _ NoIntF) ?_)
  refine tokSafe_pseq buf (tsafe_runWS buf NoIntF) ?_
  refine tokSafe_pseq buf (tokSafe_pcap buf (tsafe_runUnsigned buf NoIntF))
    (tokSafe_pact buf 3 ?_)
  exact fun text e h => ⟨SetLimit text e, rfl, h⟩

theorem tsafe_runQuery (buf : Buf) :
    TokSafe buf (runQuery buf) NoIntF NoIntF := by
  unfold runQuery
  refine tokSafe_ptag buf _ (tokSafe_pseq buf (tsafe_runWS buf NoIntF) ?_)
  refine tokSafe_pseq buf (tokSafe_popt buf (tsafe_runColumnExpr buf)) ?_
  refine tokSafe_pseq buf (tsafe_runWS buf NoIntF) ?_
  refine tokSafe_pseq buf (tokSafe_popt buf (tsafe_runWhereExpr buf)) ?_
  refine tokSafe_pseq buf (tsafe_runWS buf NoIntF) ?_
  refine tokSafe_pseq buf (tokSafe_popt buf (tsafe_runGroupExpr buf)) ?_
  refine tokSafe_pseq buf (tsafe_runWS buf NoIntF) ?_
  refine tokSafe_pseq buf (tokSafe_popt buf (tsafe_runOrderByExpr buf)) ?_
  refine tokSafe_pseq buf (tsafe_runWS buf NoIntF) ?_
  refine tokSafe_pseq buf (tokSafe_popt buf (tsafe_runLimitExpr buf)) ?_
  exact tokSafe_pseq buf (tsafe_runWS buf NoIntF) (tokSafe_pnot buf _ NoIntF)

/-- A successful parse always executes its token list without a builder
panic, and the resulting query carries no integer-typed filter value. -/
theorem parse_exec_ok (s : String) :
    ∀ p ts, runQuery (mkBuf s) 0 = some (p, ts) →
      ∃ st', execToks (mkBuf s) ts ("", {}) = some st' ∧
        ∀ fd ∈ st'.2.query.Filters, isIntVal fd.Value = false := by
  intro p ts hq
  have h0 : NoIntF ({} : ExprState) := by
    intro fd hfd
    simp at hfd
  obtain ⟨st', hst, hn⟩ := tsafe_runQuery (mkBuf s) 0 p ts hq ("", {}) h0
  exact ⟨st', hst, hn⟩

/-! ## Supporting lemmas: whitespace-only inputs -/

theorem char_toNat_lt (c : Char) : c.toNat < endSymbol := by
  have h := c.valid
  rcases h with h | ⟨h1, h2⟩
  · have : c.toNat < 55296 := h
    unfold endSymbol
    omega
  · have : c.toNat < 1114112 := h2
    unfold endSymbol
    omega

theorem pchar_end (buf : Buf) (c pos : Nat) (hc : c < endSymbol)
    (h : getRune buf pos = endSymbol) : pchar buf c pos = none := by
  simp only [pchar, h]
  split
  · omega
  · rfl

theorem pcharCI_end (buf : Buf) (c : Char) (pos : Nat)
    (h : getRune buf pos = endSymbol) : pcharCI buf c pos = none := by
  have h1 := char_toNat_lt c
  unfold pcharCI
  split
  · rw [palt, pchar_end buf _ pos h1 h, pchar_end buf _ pos (by omega) h]
  · exact pchar_end buf _ pos h1 h

theorem pstrCI_end (buf : Buf) (c : Char) (rest : List Char) (pos : Nat)
    (h : getRune buf pos = endSymbol) : pstrCI buf (c :: rest) pos = none := by
  unfold pstrCI
  rw [pseq, pcharCI_end buf c pos h]

theorem wsAlt_none (buf : Buf) (pos : Nat) (h : getRune buf pos = endSymbol) :
    wsAlt buf pos = none := by
  unfold wsAlt
  rw [palt, pchar_end buf _ pos (by decide) h]
  rw [palt, pchar_end buf _ pos (by decide) h]
  rw [palt, pseq, pchar_end buf _ pos (by decide) h]
  rw [palt, pchar_end buf _ pos (by decide) h]
  exact pchar_end buf _ pos (by decide) h

theorem wsAlt_step (buf : Buf) (n pos : Nat)
    (hin : ∀ i, i < n → getRune buf i = 32 ∨ getRune buf i = 9 ∨
      getRune buf i = 10 ∨ getRune buf i = 13)
    (hend : ∀ i, n ≤ i → getRune buf i = endSymbol)
    (h : pos < n) :
    ∃ p', wsAlt buf pos = some (p', []) ∧ pos < p' ∧ p' ≤ n := by
  have e32 : ' '.toNat = 32 := rfl
  have e9 : '\t'.toNat = 9 := rfl
  have e10 : '\n'.toNat = 10 := rfl
  have e13 : '\r'.toNat = 13 := rfl
  rcases hin pos h with hc | hc | hc | hc
  · exact ⟨pos + 1, by simp [wsAlt, palt, pchar, e32, hc], by omega, by omega⟩
  · exact ⟨pos + 1, by simp [wsAlt, palt, pchar, e32, e9, hc], by omega, by omega⟩
  · exact ⟨pos + 1, by simp [wsAlt, palt, pseq, pchar, e32, e9, e10, e13, hc], by omega, by omega⟩
  · by_cases h2 : getRune buf (pos + 1) = 10
    · refine ⟨pos + 2, by simp [wsAlt, palt, pseq, pchar, e32, e9, e10, e13, hc, h2], by omega, ?_⟩
      by_cases h3 : pos + 1 < n
      · omega
      · have h4 : n ≤ pos + 1 := by omega
        rw [hend _ h4] at h2
        exact absurd h2 (by decide)
    · exact ⟨pos + 1, by simp [wsAlt, palt, pseq, pchar, e32, e9, e10, e13, hc, h2],
        by omega, by omega⟩

theorem pstarF_wsAll (buf : Buf) (n : Nat)
    (hin : ∀ i, i < n → getRune buf i = 32 ∨ getRune buf i = 9 ∨
      getRune buf i = 10 ∨ getRune buf i = 13)
    (hend : ∀ i, n ≤ i → getRune buf i = endSymbol) :
    ∀ f pos, pos ≤ n → n - pos < f → pstarF f (wsAlt buf) pos = (n, []) := by
  intro f
  induction f with
  | zero => intro pos h1 h2; omega
  | succ f ih =>
    intro pos hpos hlt
    by_cases hn : pos = n
    · subst hn
      unfold pstarF
      rw [wsAlt_none buf pos (hend pos le_rfl)]
    · obtain ⟨p', hw, ha, hb⟩ := wsAlt_step buf n pos hin hend (by omega)
      unfold pstarF
      rw [hw]
      simp [ha, ih p' hb (by omega)]

theorem runWS_all (buf : Buf) (n : Nat)
    (hin : ∀ i, i < n → getRune buf i = 32 ∨ getRune buf i = 9 ∨
      getRune buf i = 10 ∨ getRune buf i = 13)
    (hend : ∀ i, n ≤ i → getRune buf i = endSymbol)
    (hlen : n < buf.length + 1) (pos : Nat) (hpos : pos ≤ n) :
    runWS buf pos = some (n, [Tok.peg 32 pos n]) := by
  have hstar : pstarF (buf.length + 1 - pos) (wsAlt buf) pos = (n, []) :=
    pstarF_wsAll buf n hin hend _ pos hpos (by omega)
  simp [runWS, pstar, ptag, hstar]

theorem runColumnExpr_end (buf : Buf) (pos : Nat) (h : getRune buf pos = endSymbol) :
    runColumnExpr buf pos = none := by
  have hd : "select".data = 's' :: "elect".data := rfl
  rw [runColumnExpr, ptag, pseq, hd, pstrCI_end buf _ _ pos h]

theorem runWhereExpr_end (buf : Buf) (pos : Nat) (h : getRune buf pos = endSymbol) :
    runWhereExpr buf pos = none := by
  have hd : "where".data = 'w' :: "here".data := rfl
  rw [runWhereExpr, ptag, pseq, hd, pstrCI_end buf _ _ pos h]

theorem runGroupExpr_end (buf : Buf) (pos : Nat) (h : getRune buf pos = endSymbol) :
    runGroupExpr buf pos = none := by
  have hd : "group by".data = 'g' :: "roup by".data := rfl
  rw [runGroupExpr, ptag, pseq, hd, pstrCI_end buf _ _ pos h]

theorem runOrderByExpr_end (buf : Buf) (pos : Nat) (h : getRune buf pos = endSymbol) :
    runOrderByExpr buf pos = none := by
  have hd : "order by".data = 'o' :: "rder by".data := rfl
  rw [runOrderByExpr, ptag, pseq, hd, pstrCI_end buf _ _ pos h]

theorem runLimitExpr_end (buf : Buf) (pos : Nat) (h : getRune buf pos = endSymbol) :
    runLimitExpr buf pos = none := by
  have hd : "limit".data = 'l' :: "imit".data := rfl
  rw [runLimitExpr, ptag, pseq, hd, pstrCI_end buf _ _ pos h]

theorem mkBuf_getRune_lt (s : String) (i : Nat) (h : i < s.data.length) :
    getRune (mkBuf s) i = (s.data.get ⟨i, h⟩).toNat := by
  unfold getRune mkBuf
  rw [List.getD_append _ _ _ _ (by simpa using h)]
  rw [List.getD_eq_getElem _ _ (by simpa using h)]
  simp

theorem mkBuf_getRune_ge (s : String) (i : Nat) (h : s.data.length ≤ i) :
    getRune (mkBuf s) i = endSymbol := by
  unfold getRune mkBuf
  rcases Nat.lt_or_ge i (s.data.length + 1) with hi | hi
  · have h2 : i = s.data.length := by omega
    subst h2
    rw [List.getD_append_right _ _ _ _ (by simp)]
    simp
  · rw [List.getD_eq_default]
    simp only [List.length_append, List.length_map, List.length_singleton]
    omega

/-! ## Supporting lemmas: the scan loop -/

theorem scanLoop_nolimit (fs : List FilterDesc) (limit : Int) (h : ¬ limit > 0) :
    ∀ rows acc, scanLoop fs limit acc rows =
      (acc ++ (rows.filter (rowPasses fs)).map copyRow, []) := by
  intro rows
  induction rows with
  | nil => intro acc; simp [scanLoop]
  | cons r rest ih =>
    intro acc
    simp only [scanLoop]
    by_cases hp : rowPasses fs r = true
    · rw [if_pos hp, if_neg (fun hc => h hc.1), ih]
      simp [List.filter_cons, hp]
    · rw [if_neg hp, ih]
      simp [List.filter_cons, hp]

theorem scanLoop_limit (fs : List FilterDesc) (limit : Int) (hl : 0 < limit) :
    ∀ rows acc, acc.length < limit.toNat →
      (scanLoop fs limit acc rows).1 =
        acc ++ ((rows.filter (rowPasses fs)).take (limit.toNat - acc.length)).map copyRow ∧
      ∃ visited, rows = visited ++ (scanLoop fs limit acc rows).2 ∧
        ((rows.filter (rowPasses fs)).length < limit.toNat - acc.length →
          (scanLoop fs limit acc rows).2 = []) ∧
        (limit.toNat - acc.length ≤ (rows.filter (rowPasses fs)).length →
          ∃ v r, visited = v ++ [r] ∧ rowPasses fs r = true) := by
  have hL : ((limit.toNat : Int)) = limit := Int.toNat_of_nonneg (le_of_lt hl)
  intro rows
  induction rows with
  | nil =>
    intro acc hacc
    refine ⟨by simp [scanLoop], [], by simp [scanLoop], fun _ => by simp [scanLoop], ?_⟩
    intro hle
    simp only [List.filter_nil, List.length_nil] at hle
    omega
  | cons r rest ih =>
    intro acc hacc
    by_cases hp : rowPasses fs r = true
    · by_cases hstop : ((acc ++ [copyRow r]).length : Int) = limit
      · have hs : scanLoop fs limit acc (r :: rest) = (acc ++ [copyRow r], rest) := by
          simp only [scanLoop]
          rw [if_pos hp, if_pos ⟨hl, hstop⟩]
        have hone : limit.toNat - acc.length = 1 := by
          simp only [List.length_append, List.length_singleton] at hstop
          omega
        rw [hs]
        refine ⟨?_, [r], rfl, ?_, ?_⟩
        · simp [List.filter_cons, hp, hone]
        · intro hlt
          rw [List.filter_cons_of_pos hp] at hlt
          simp only [List.length_cons] at hlt
          exact absurd hlt (by omega)
        · intro _
          exact ⟨[], r, rfl, hp⟩
      · have hs : scanLoop fs limit acc (r :: rest) =
            scanLoop fs limit (acc ++ [copyRow r]) rest := by
          simp only [scanLoop]
          rw [if_pos hp, if_neg (fun hc => hstop hc.2)]
        have hacc' : (acc ++ [copyRow r]).length < limit.toNat := by
          simp only [List.length_append, List.length_singleton] at hstop ⊢
          have : (acc.length : Int) + 1 ≠ limit := by
            intro hc
            apply hstop
            push_cast
            omega
          omega
        obtain ⟨hres, visited, hsplit, hrem, hlast⟩ := ih (acc ++ [copyRow r]) hacc'
        have hsub : limit.toNat - acc.length = (limit.toNat - (acc ++ [copyRow r]).length) + 1 := by
          simp only [List.length_append, List.length_singleton]
          omega
        rw [hs]
        refine ⟨?_, r :: visited, ?_, ?_, ?_⟩
        · rw [hres, List.filter_cons_of_pos hp, hsub, List.take_succ_cons]
          simp
        · rw [List.cons_append, ← hsplit]
        · intro hlt
          apply hrem
          rw [List.filter_cons_of_pos hp] at hlt
          simp only [List.length_cons] at hlt
          omega
        · intro hge
          rw [List.filter_cons_of_pos hp] at hge
          simp only [List.length_cons] at hge
          obtain ⟨v, rr, hv, hrr⟩ := hlast (by omega)
          exact ⟨r :: v, rr, by rw [hv, List.cons_append], hrr⟩
    · have hs : scanLoop fs limit acc (r :: rest) = scanLoop fs limit acc rest := by
        simp only [scanLoop]
        rw [if_neg hp]
      obtain ⟨hres, visited, hsplit, hrem, hlast⟩ := ih acc hacc
      rw [hs]
      refine ⟨?_, r :: visited, ?_, ?_, ?_⟩
      · rw [hres, List.filter_cons_of_neg (by simpa using hp)]
      · rw [List.cons_append, ← hsplit]
      · intro hlt
        apply hrem
        rwa [List.filter_cons_of_neg (by simpa using hp)] at hlt
      · intro hge
        rw [List.filter_cons_of_neg (by simpa using hp)] at hge
        obtain ⟨v, rr, hv, hrr⟩ := hlast hge
        exact ⟨r :: v, rr, by rw [hv, List.cons_append], hrr⟩

/-! ## Claim theorems -/

/-- C10: Parse applied to the empty string, or to any string consisting only
of spaces, tabs, and newlines (and carriage returns, which the `_` rule also
skips), succeeds and returns the zero-value Query: empty columns, group-by,
filters and order-by, descending false, limit 0 — every clause of the Query
rule is optional. -/
theorem claim10_whitespace (s : String)
    (h : ∀ c ∈ s.data, c = ' ' ∨ c = '\t' ∨ c = '\n' ∨ c = '\r') :
    ParseQ s = .ok ⟨[], [], [], [], false, 0⟩ := by
  have hin : ∀ i, i < s.data.length → getRune (mkBuf s) i = 32 ∨
      getRune (mkBuf s) i = 9 ∨ getRune (mkBuf s) i = 10 ∨ getRune (mkBuf s) i = 13 := by
    intro i hi
    rw [mkBuf_getRune_lt s i hi]
    rcases h (s.data.get ⟨i, hi⟩) (List.get_mem _ _ _) with hc | hc | hc | hc <;>
      rw [hc] <;> simp
  have hend : ∀ i, s.data.length ≤ i → getRune (mkBuf s) i = endSymbol :=
    fun i hi => mkBuf_getRune_ge s i hi
  have hlen : s.data.length < (mkBuf s).length + 1 := by
    unfold mkBuf
    rw [List.length_append, List.length_map]
    omega
  have hws : ∀ pos, pos ≤ s.data.length →
      runWS (mkBuf s) pos = some (s.data.length, [Tok.peg 32 pos s.data.length]) :=
    fun pos hp => runWS_all (mkBuf s) s.data.length hin hend hlen pos hp
  have hES : getRune (mkBuf s) s.data.length = endSymbol := hend _ le_rfl
  have hce := runColumnExpr_end (mkBuf s) s.data.length hES
  have hwe := runWhereExpr_end (mkBuf s) s.data.length hES
  have hge := runGroupExpr_end (mkBuf s) s.data.length hES
  have hoe := runOrderByExpr_end (mkBuf s) s.data.length hES
  have hle := runLimitExpr_end (mkBuf s) s.data.length hES
  have hdot : pdot (mkBuf s) s.data.length = none := by
    unfold pdot
    rw [hES]
    simp
  have hq : runQuery (mkBuf s) 0 = some (s.data.length,
      [Tok.peg 32 0 s.data.length, Tok.peg 32 s.data.length s.data.length,
       Tok.peg 32 s.data.length s.data.length, Tok.peg 32 s.data.length s.data.length,
       Tok.peg 32 s.data.length s.data.length, Tok.peg 32 s.data.length s.data.length,
       Tok.peg 1 0 s.data.length]) := by
    simp only [runQuery, ptag, pseq, popt, pnot, hws 0 (Nat.zero_le _),
      hws s.data.length le_rfl, hce, hwe, hge, hoe, hle, hdot,
      List.cons_append, List.nil_append, List.append_nil, List.singleton_append]
  rw [ParseQ]
  rw [hq]
  rfl

/-- C1, counterexample: the claim says plain signed-digit literals are stored
typed as integer; in fact `Parse("SELECT * WHERE foo = 1, bar = 2")` stores
both filter values typed as float64 (the `FilterValue` dispatch tries `Float`
first and `Float` matches every plain integer literal), and a float-typed
value is not an integer-typed value. -/
theorem claim1_counterexample :
    ParseQ "SELECT * WHERE foo = 1, bar = 2" =
      .ok ⟨[⟨"*", ""⟩], [],
        [⟨"foo", "=", .vFloat ⟨1, 0⟩⟩, ⟨"bar", "=", .vFloat ⟨2, 0⟩⟩], [], false, 0⟩ ∧
    GoValue.vFloat ⟨1, 0⟩ ≠ GoValue.vInt 1 ∧
    GoValue.vFloat ⟨2, 0⟩ ≠ GoValue.vInt 2 := by
  decide

/-- C1, amended: every WHERE-clause literal written as plain signed digits is
stored typed as float64, never integer — `Float` subsumes `Integer`, so the
integer branch of `FilterValue` is unreachable and no successful parse ever
stores an integer-typed filter value.  The example query yields the two
filters `foo` and `bar`, in order, with float values 1 and 2. -/
theorem claim1_amended :
    (ParseQ "SELECT * WHERE foo = 1, bar = 2" =
      .ok ⟨[⟨"*", ""⟩], [],
        [⟨"foo", "=", .vFloat ⟨1, 0⟩⟩, ⟨"bar", "=", .vFloat ⟨2, 0⟩⟩], [], false, 0⟩) ∧
    (∀ s q, ParseQ s = .ok q → ∀ fd ∈ q.Filters, isIntVal fd.Value = false) := by
  refine ⟨by decide, ?_⟩
  intro s q hpq fd hfd
  unfold ParseQ at hpq
  cases hq : runQuery (mkBuf s) 0 with
  | none => simp [hq] at hpq
  | some r =>
    obtain ⟨p, ts⟩ := r
    obtain ⟨st', hst, hn⟩ := parse_exec_ok s p ts hq
    simp only [hq, hst] at hpq
    have hq' : q = st'.2.query := by
      cases hpq
      rfl
    rw [hq'] at hfd
    exact hn fd hfd

/-- C1, witness for the amended theorem: instantiating it on
`SELECT * WHERE a = 3` shows the stored value is not integer-typed. -/
theorem claim1_amended_witness : isIntVal (GoValue.vFloat ⟨3, 0⟩) = false :=
  claim1_amended.2 "SELECT * WHERE a = 3"
    ⟨[⟨"*", ""⟩], [], [⟨"a", "=", .vFloat ⟨3, 0⟩⟩], [], false, 0⟩ (by decide)
    ⟨"a", "=", .vFloat ⟨3, 0⟩⟩ (by decide)

/-- C2, counterexample: for the query with projection `[{"*", "min"}]` (not a
sole `*` column with empty aggregate, so the claim demands failure before the
cursor is opened) `Execute` opens the cursor first — and when `NewCursor`
itself fails, `Execute` propagates that error instead of the claimed
unsupported-query error. -/
theorem claim2_counterexample :
    (ExecuteM ⟨[⟨"*", "min"⟩], [], [], [], false, 0⟩ (.mk ⟨[], none⟩)).opened = true ∧
    (ExecuteM ⟨[⟨"*", "min"⟩], [], [], [], false, 0⟩ (.failNew (.ext 7))).res =
      .error (.ext 7) := by
  decide

/-- C2, amended: the pre-cursor shape check only rejects projections that are
not a single column named `*` (its aggregate is not examined) or a non-empty
group-by; those fail with the unsupported error before `NewCursor` is called.
A sole-`*` projection with empty group-by but non-empty order-by or a
non-empty aggregate opens the cursor first: a `NewCursor` error is returned
verbatim, and otherwise the unsupported error is returned, with no rows in
either case. -/
theorem claim2_amended (q : Query) (t : TableM) :
    (((¬ ∃ col, q.Columns = [col] ∧ col.Name = "*") ∨ q.GroupBy ≠ []) →
      (ExecuteM q t).res = .error .unsupported ∧ (ExecuteM q t).opened = false) ∧
    (∀ col, q.Columns = [col] → col.Name = "*" → q.GroupBy = [] →
      (q.OrderBy ≠ [] ∨ col.Aggregate ≠ "") →
      (ExecuteM q t).opened = true ∧
      (ExecuteM q t).res =
        (match t with
          | .failNew e => .error e
          | .mk _ => .error .unsupported)) := by
  constructor
  · intro h
    match hc : q.Columns with
    | [] => simp [ExecuteM, hc]
    | [col] =>
      rcases h with h | h
      · have hne : ¬ col.Name = "*" := fun hn => h ⟨col, hc, hn⟩
        simp [ExecuteM, hc, hne]
      · simp [ExecuteM, hc, h]
    | c1 :: c2 :: rest => simp [ExecuteM, hc]
  · intro col hc hname hg hoa
    match t with
    | .failNew e => simp [ExecuteM, hc, hname, hg]
    | .mk c =>
      by_cases ho : q.OrderBy = []
      · have ha : col.Aggregate ≠ "" := by
          rcases hoa with h | h
          · exact absurd ho h
          · exact h
        have hagg : q.Columns.any (fun col => col.Aggregate ≠ "") = true := by
          rw [hc]
          simpa using ha
        simp [ExecuteM, hc, hname, hg, ho, hagg, ha]
      · have hol : 0 < q.OrderBy.length := List.length_pos.mpr ho
        simp [ExecuteM, hc, hname, hg, hol]

/-- C2, witness for the amended theorem: an empty projection fails before the
cursor opens; a sole `*` with an aggregate opens the cursor and then fails. -/
theorem claim2_amended_witness :
    ((ExecuteM ⟨[], [], [], [], false, 0⟩ (.mk ⟨[], none⟩)).res = .error .unsupported ∧
     (ExecuteM ⟨[], [], [], [], false, 0⟩ (.mk ⟨[], none⟩)).opened = false) ∧
    ((ExecuteM ⟨[⟨"*", "min"⟩], [], [], [], false, 0⟩ (.mk ⟨[], none⟩)).opened = true ∧
     (ExecuteM ⟨[⟨"*", "min"⟩], [], [], [], false, 0⟩ (.mk ⟨[], none⟩)).res =
       .error .unsupported) :=
  ⟨(claim2_amended ⟨[], [], [], [], false, 0⟩ (.mk ⟨[], none⟩)).1
      (Or.inl (fun ⟨col, hcol, _⟩ => by cases hcol)),
   (claim2_amended ⟨[⟨"*", "min"⟩], [], [], [], false, 0⟩ (.mk ⟨[], none⟩)).2
      ⟨"*", "min"⟩ rfl rfl rfl (Or.inr (by decide))⟩

/-- C3: executing the Query parsed from `SELECT * WHERE id > 2` against a
cursor yielding four rows with `id` = 1, 2, 3, 4 returns exactly the rows
with `id` 3 and 4, in cursor order.  (Filter evaluation is modelled from the
spec, since the repository's filter source file is not under src/.) -/
theorem claim3_filtered_scan :
    ParseQ "SELECT * WHERE id > 2" =
      .ok ⟨[⟨"*", ""⟩], [], [⟨"id", ">", .vFloat ⟨2, 0⟩⟩], [], false, 0⟩ ∧
    (ExecuteM ⟨[⟨"*", ""⟩], [], [⟨"id", ">", .vFloat ⟨2, 0⟩⟩], [], false, 0⟩
        (.mk ⟨[[("id", .vInt 1)], [("id", .vInt 2)], [("id", .vInt 3)], [("id", .vInt 4)]],
          none⟩)).res =
      .ok [[("id", .vInt 3)], [("id", .vInt 4)]] := by
  decide

/-- C4: for every executable query (sole `*` projection, no group-by,
order-by or aggregate) against a cleanly-exhausting cursor: with a positive
limit the result is exactly the first `min(Limit, #qualifying)` qualifying
rows in cursor order, the rows after the one that filled the limit are never
visited, and the scan stopped right at a qualifying row; with limit 0 all
qualifying rows are returned.  (Filter evaluation is modelled from the
spec.) -/
theorem claim4_limit (q : Query) (col : ColumnDesc) (c : CursorM)
    (hcol : q.Columns = [col]) (hname : col.Name = "*") (hagg : col.Aggregate = "")
    (hg : q.GroupBy = []) (ho : q.OrderBy = []) (he : c.errv = none) :
    (0 < q.Limit →
      (ExecuteM q (.mk c)).res =
        .ok (((c.rows.filter (rowPasses q.Filters)).take q.Limit.toNat).map copyRow) ∧
      ∃ visited, c.rows = visited ++ (ExecuteM q (.mk c)).remaining ∧
        ((c.rows.filter (rowPasses q.Filters)).length < q.Limit.toNat →
          (ExecuteM q (.mk c)).remaining = []) ∧
        (q.Limit.toNat ≤ (c.rows.filter (rowPasses q.Filters)).length →
          ∃ v r, visited = v ++ [r] ∧ rowPasses q.Filters r = true)) ∧
    (q.Limit = 0 →
      (ExecuteM q (.mk c)).res = .ok ((c.rows.filter (rowPasses q.Filters)).map copyRow)) := by
  have hexec : ExecuteM q (.mk c) =
      ⟨.ok (scanLoop q.Filters q.Limit [] c.rows).1, true,
        (scanLoop q.Filters q.Limit [] c.rows).2⟩ := by
    simp [ExecuteM, hcol, hname, hg, ho, hagg, he]
  constructor
  · intro hlim
    have h0 : ([] : List RowM).length < q.Limit.toNat := by
      simp
      omega
    obtain ⟨hres, visited, hsplit, hrem, hlast⟩ :=
      scanLoop_limit q.Filters q.Limit hlim c.rows [] h0
    rw [hexec]
    refine ⟨?_, visited, hsplit, ?_, ?_⟩
    · simp only []
      rw [hres]
      simp
    · intro hlt
      exact hrem (by simpa using hlt)
    · intro hge
      exact hlast (by simpa using hge)
  · intro h0
    rw [hexec]
    simp only []
    rw [scanLoop_nolimit q.Filters q.Limit (by omega) c.rows []]
    simp

/-- C4, witness: limit 2 over four rows with no filters returns the first two
rows and leaves the last two unvisited. -/
theorem claim4_witness :
    (ExecuteM ⟨[⟨"*", ""⟩], [], [], [], false, 2⟩
        (.mk ⟨[[("id", .vInt 1)], [("id", .vInt 2)], [("id", .vInt 3)], [("id", .vInt 4)]],
          none⟩)).res =
      .ok [[("id", .vInt 1)], [("id", .vInt 2)]] := by
  have h := claim4_limit ⟨[⟨"*", ""⟩], [], [], [], false, 2⟩ ⟨"*", ""⟩
    ⟨[[("id", .vInt 1)], [("id", .vInt 2)], [("id", .vInt 3)], [("id", .vInt 4)]], none⟩
    rfl rfl rfl rfl rfl rfl
  have h2 := (h.1 (by decide)).1
  rw [h2]
  decide

/-- C5: for every executable query, if the cursor's terminal error is
non-nil, Execute returns that error verbatim and no result rows, no matter
what rows were scanned before. -/
theorem claim5_cursor_error (q : Query) (col : ColumnDesc) (c : CursorM) (e : GoError)
    (hcol : q.Columns = [col]) (hname : col.Name = "*") (hagg : col.Aggregate = "")
    (hg : q.GroupBy = []) (ho : q.OrderBy = []) (he : c.errv = some e) :
    (ExecuteM q (.mk c)).res = .error e := by
  simp [ExecuteM, hcol, hname, hg, ho, hagg, he]

/-- C5, witness: a cursor that yields rows and then reports an error makes
Execute return that error. -/
theorem claim5_witness :
    (ExecuteM ⟨[⟨"*", ""⟩], [], [], [], false, 0⟩
        (.mk ⟨[[("id", .vInt 1)]], some (.ext 3)⟩)).res = .error (.ext 3) :=
  claim5_cursor_error ⟨[⟨"*", ""⟩], [], [], [], false, 0⟩ ⟨"*", ""⟩
    ⟨[[("id", .vInt 1)]], some (.ext 3)⟩ (.ext 3) rfl rfl rfl rfl rfl rfl

/-- C6: a filter evaluates to false when the row has no value for the
filter's column, and also when the row value's type is incompatible with the
filter value's type (not both numeric, nor both string).  (Filter evaluation
is modelled from the spec, since the repository's filter source file is not
under src/.) -/
theorem claim6_filter_mismatch (row : RowM) (fd : FilterDesc) :
    (rowGet row fd.Column = none → filterEval row fd = false) ∧
    (∀ v, rowGet row fd.Column = some v →
      ¬(isNumV v = true ∧ isNumV fd.Value = true) →
      ¬(isStrV v = true ∧ isStrV fd.Value = true) →
      filterEval row fd = false) := by
  constructor
  · intro h
    unfold filterEval
    rw [h]
  · intro v hv hnum hstr
    unfold filterEval
    rw [hv]
    cases v <;> cases hfd : fd.Value <;> simp_all [coerceV, isNumV, isStrV]

/-- C6, witness: an absent column and a numeric-vs-string mismatch both
evaluate to false. -/
theorem claim6_witness :
    filterEval [("a", GoValue.vInt 1)] ⟨"b", "=", .vInt 1⟩ = false ∧
    filterEval [("a", GoValue.vInt 1)] ⟨"a", "=", .vStr "x"⟩ = false :=
  ⟨(claim6_filter_mismatch [("a", GoValue.vInt 1)] ⟨"b", "=", .vInt 1⟩).1 (by decide),
   (claim6_filter_mismatch [("a", GoValue.vInt 1)] ⟨"a", "=", .vStr "x"⟩).2
     (GoValue.vInt 1) (by decide) (by decide) (by decide)⟩

/-- C7, counterexample: the claim says every capitalization of a keyword is
rejected by Identifier; in fact the Keyword rule matches lowercase spellings
only, so Identifier accepts `DESC` and `Parse("SELECT DESC")` succeeds with
column name `DESC` instead of failing like `Parse("select desc")`. -/
theorem claim7_counterexample :
    (runIdentifier (mkBuf "DESC") 0).isSome = true ∧
    ParseQ "SELECT DESC" = .ok ⟨[⟨"DESC", ""⟩], [], [], [], false, 0⟩ := by
  decide

/-- C7, amended: the Identifier rule's keyword exclusion is case-sensitive:
exactly the lowercase spellings `select`, `group by`, `filters`, `order by`,
`desc`, `limit` are rejected as identifiers (so `Parse("select desc")` fails,
while other capitalizations parse as column names). -/
theorem claim7_amended :
    runIdentifier (mkBuf "select") 0 = none ∧
    runIdentifier (mkBuf "group by") 0 = none ∧
    runIdentifier (mkBuf "filters") 0 = none ∧
    runIdentifier (mkBuf "order by") 0 = none ∧
    runIdentifier (mkBuf "desc") 0 = none ∧
    runIdentifier (mkBuf "limit") 0 = none ∧
    ParseQ "select desc" = .err := by
  decide

/-- C8, counterexample: for the quoted value `"\""` the claim predicts the
stored string `\"` (surrounding quotes stripped, escape untranslated); the
builder's `strings.Trim` also removes the quote of the trailing escape, so
the stored value is the lone backslash `\`. -/
theorem claim8_counterexample :
    ParseQ "SELECT * WHERE a = \"\\\"\"" =
      .ok ⟨[⟨"*", ""⟩], [], [⟨"a", "=", .vStr "\\"⟩], [], false, 0⟩ ∧
    "\\" ≠ "\\\"" := by
  decide

/-- C8, amended: the stored string value is the captured text with *all*
leading and trailing double-quote characters trimmed (`strings.Trim`) and
with escape sequences left untranslated: `"x\ny"` stores the five characters
`x\ny` literally, while a value ending in an escaped quote such as `"\""`
loses that quote to the trailing trim and stores `\`. -/
theorem claim8_amended :
    ParseQ "SELECT * WHERE a = \"x\\ny\"" =
      .ok ⟨[⟨"*", ""⟩], [], [⟨"a", "=", .vStr "x\\ny"⟩], [], false, 0⟩ ∧
    ParseQ "SELECT * WHERE a = \"\\\"\"" =
      .ok ⟨[⟨"*", ""⟩], [], [⟨"a", "=", .vStr "\\"⟩], [], false, 0⟩ := by
  decide

/-- C9, counterexample: the claim says a numeric capture that fails to parse
is assigned a zero value; `Parse("LIMIT 9223372036854775808")` has a capture
on which `strconv.Atoi` errors (range overflow), yet the stored limit is the
clamped extreme 9223372036854775807, not zero. -/
theorem claim9_counterexample :
    ParseQ "LIMIT 9223372036854775808" =
      .ok ⟨[], [], [], [], false, 9223372036854775807⟩ ∧
    (goAtoi "9223372036854775808").2 = true ∧
    (9223372036854775807 : Int) ≠ 0 := by
  decide

/-- C9, amended: Parse never panics — for every input it returns a parse
error or a Query; in every successful parse each add-column/add-filter action
precedes the corresponding set actions, so every builder action finds its
target list non-empty.  A numeric capture whose conversion errors is
silently assigned whatever value the conversion returns with the error —
zero for malformed text (unreachable through the grammar), the clamped
extreme for out-of-range text. -/
theorem claim9_amended :
    (∀ s, ParseQ s ≠ .crash) ∧
    ParseQ "LIMIT 9223372036854775808" =
      .ok ⟨[], [], [], [], false, 9223372036854775807⟩ ∧
    (goAtoi "9223372036854775808").2 = true := by
  refine ⟨?_, by decide, by decide⟩
  intro s
  unfold ParseQ
  cases hq : runQuery (mkBuf s) 0 with
  | none => simp [hq]
  | some r =>
    obtain ⟨p, ts⟩ := r
    obtain ⟨st', hst, _⟩ := parse_exec_ok s p ts hq
    simp [hq, hst]

/-- C9, witness: the never-crash statement instantiated at a concrete
input. -/
theorem claim9_witness : ParseQ "SELECT *" ≠ .crash :=
  claim9_amended.1 "SELECT *"

/-- C10, witness: the empty string and a mixed run of whitespace both parse
to the zero Query. -/
theorem claim10_witness :
    ParseQ "" = .ok ⟨[], [], [], [], false, 0⟩ ∧
    ParseQ " \t\r\n " = .ok ⟨[], [], [], [], false, 0⟩ :=
  ⟨claim10_whitespace "" (by decide), claim10_whitespace " \t\r\n " (by decide)⟩

end QueryPkg
